import Mathlib

/-!
Verification development for the Chat_Bot backend.

The definitions below are a shallow embedding of the backend source:

* the notification data model and the REST route handlers of
  `backend/routes/chat.js`, `backend/routes/auth.js` and
  `backend/routes/user.js` (bundled in `backend/check-users.js`), and
* the socket.io connection registry of `backend/server.js`.

Side effects are made explicit: every handler returns, besides its HTTP
response, the post-state of the document store and a trace of notification
actions (`persist` for `Notification.create`, `emitRoom` for
`io.to(user room).emit`, `emitAll` for `io.emit`), listed in the real-time
order in which the handler performs them (the `setTimeout` delays of the
source only sequence these actions; the delays themselves carry no other
meaning and are recorded here only through that order).

External collaborators are parameters: each `Notification.create` call
site has its own Boolean success oracle (`createOk` in the
create-conversation handler; `lowOk`, `urgentOk`, `aiOk` for the three
independently failable calls of the send-message handler), the mock AI
reply is an oracle (`aiContent`; the source draws it with `Math.random`),
clock readings are explicit arguments, and jwt verification is a function
parameter.
-/

namespace ChatBot

/-- A stored notification document (`models/Notification` as used by the
routes): id, target user, title, body, category (`type`), metadata
(`source`, `priority`), read flag, optional read timestamp, creation
timestamp. -/
structure Notif where
  nid : Nat
  userId : String
  title : String
  message : String
  ntype : String
  msource : String
  priority : String
  isRead : Bool
  readAt : Option Nat
  createdAt : Nat
  deriving Repr, DecidableEq

/-- The payload sent on the `notification` socket event:
`{id, message, type, timestamp, read}`.  `pid` is `none` for the global
payloads the source builds without persisting (they have no `id` field). -/
structure NPayload where
  pid : Option Nat
  message : String
  ntype : String
  read : Bool
  deriving Repr, DecidableEq

/-- The payload the routes build from a persisted notification:
`{id: String(n._id), message: n.message, type: n.type, read: n.isRead}`. -/
def payloadOf (n : Notif) : NPayload :=
  { pid := some n.nid, message := n.message, ntype := n.ntype, read := n.isRead }

/-- One observable notification action of a handler. -/
inductive NAction where
  /-- `Notification.create(...)` succeeded and stored `n`. -/
  | persist (n : Notif)
  /-- `io.to(user room of userId).emit(notification, p)`. -/
  | emitRoom (userId : String) (p : NPayload)
  /-- `io.emit(notification, p)` to every connection. -/
  | emitAll (p : NPayload)
  deriving Repr, DecidableEq

/-- A conversation document (the fields the modelled routes read). -/
structure Conv where
  cid : Nat
  title : String
  userId : String
  isActive : Bool
  messageCount : Nat
  deriving Repr, DecidableEq

/-- A message document. -/
structure Msg where
  conversationId : Nat
  userId : String
  content : String
  role : String
  deriving Repr, DecidableEq

/-- The durable document store visible to the modelled routes, plus the
credit balance of the authenticated user (their `users` document).
`nextId` models Mongo id assignment. -/
structure Store where
  convs : List Conv
  msgs : List Msg
  notifs : List Notif
  credits : Int
  nextId : Nat
  deriving Repr, DecidableEq

def initStore : Store := { convs := [], msgs := [], notifs := [], credits := 0, nextId := 0 }

/-- `Notification.create({userId, title, message, type, metadata})`:
assigns an id and a created timestamp and appends the document. -/
def notifCreate (st : Store) (userId title message ntype msource priority : String)
    (now : Nat) : Notif × Store :=
  let n : Notif :=
    { nid := st.nextId, userId := userId, title := title, message := message,
      ntype := ntype, msource := msource, priority := priority,
      isRead := false, readAt := none, createdAt := now }
  (n, { st with notifs := st.notifs ++ [n], nextId := st.nextId + 1 })

/-- Result of a REST handler: HTTP status, the `code` field of an error
body (empty on success), the post-state of the store, and the trace of
notification actions in real-time order. -/
structure HResult where
  status : Nat
  code : String
  store : Store
  trace : List NAction
  deriving Repr, DecidableEq

/-- `POST /conversations` (chat routes): saves the conversation, persists a
`New Conversation` info notification, then after a 500ms delay emits it to
the user room only if that room currently exists; responds 201.  If
`Notification.create` throws (`createOk = false`) the shared catch block
responds 500 `CREATE_CONVERSATION_ERROR` (the saved conversation is not
rolled back, and nothing is emitted). -/
def createConversation (st : Store) (uid title : String) (createOk roomExists : Bool)
    (now : Nat) : HResult :=
  let conv : Conv :=
    { cid := st.nextId, title := title, userId := uid, isActive := true, messageCount := 0 }
  let st1 : Store := { st with convs := st.convs ++ [conv], nextId := st.nextId + 1 }
  if createOk then
    let (n, st2) := notifCreate st1 uid "New Conversation"
      ("You created a new conversation: \"" ++ title ++ "\"") "info" "chat" "low" now
    let tr :=
      NAction.persist n ::
        (if roomExists then [NAction.emitRoom uid (payloadOf n)] else [])
    { status := 201, code := "", store := st2, trace := tr }
  else
    { status := 500, code := "CREATE_CONVERSATION_ERROR", store := st1, trace := [] }

/-- `Conversation.findOne({_id, userId, isActive: true})`. -/
def findConv (st : Store) (cid : Nat) (uid : String) : Option Conv :=
  st.convs.find? (fun cv => cv.cid == cid && cv.userId == uid && cv.isActive)

/-- Bump the message count of the conversation with the given id
(`conversation.metadata.messageCount += 1; await conversation.save()`). -/
def bumpConv (st : Store) (cid : Nat) : Store :=
  { st with convs := st.convs.map (fun cv =>
      if cv.cid == cid then { cv with messageCount := cv.messageCount + 1 } else cv) }

/-- The `AI Response Ready` step of the send-message handler (its third,
always-attempted `Notification.create`): on success the notification is
persisted and, after a 700ms delay, emitted to the user room only if that
room exists; the handler then responds 200.  If this create throws
(`aiOk = false`) the shared catch block responds 500 `SEND_MESSAGE_ERROR`,
keeping everything the handler already wrote and emitted (`tr`). -/
def sendMessageAiStep (st : Store) (uid : String) (conv : Conv) (tr : List NAction)
    (aiOk roomExists : Bool) (now : Nat) : HResult :=
  if aiOk then
    let (ai, st6) := notifCreate st uid "AI Response Ready"
      ("AI has responded to your message in \"" ++ conv.title ++ "\"")
      "success" "chat" "medium" now
    let aiTr :=
      NAction.persist ai ::
        (if roomExists then [NAction.emitRoom uid (payloadOf ai)] else [])
    { status := 200, code := "", store := st6, trace := tr ++ aiTr }
  else
    { status := 500, code := "SEND_MESSAGE_ERROR", store := st, trace := tr }

/-- The urgent-threshold step of the send-message handler: when the
updated balance `c` satisfies `c <= 1245 && c > 0`, a second
`Notification.create` runs; on success the error notification is
persisted and, after an 800ms delay, emitted unconditionally, then the
AI-response step runs; if this create throws (`urgentOk = false`) the
catch block responds 500, keeping `tr` (whatever the low-credits step
already persisted and emitted). -/
def sendMessageUrgentStep (st : Store) (uid : String) (conv : Conv) (c : Int)
    (tr : List NAction) (urgentOk aiOk roomExists : Bool) (now : Nat) : HResult :=
  if c ≤ 1245 && 0 < c then
    if urgentOk then
      let (n, st5) := notifCreate st uid "URGENT: Very Low Credits"
        ("Only " ++ toString c ++
          " credits left! You will be unable to use AI features soon. Purchase credits now!")
        "error" "billing" "urgent" now
      sendMessageAiStep st5 uid conv
        (tr ++ [NAction.persist n, NAction.emitRoom uid (payloadOf n)]) aiOk roomExists
        now
    else
      { status := 500, code := "SEND_MESSAGE_ERROR", store := st, trace := tr }
  else
    sendMessageAiStep st uid conv tr aiOk roomExists now

/-- `POST /conversations/:conversationId/messages` (chat routes).
Checks credits (`402 INSUFFICIENT_CREDITS` when below 1), looks up the
conversation (`404` when absent), saves the user message, decrements the
credit balance, saves the mock AI reply, re-reads the updated balance, and
then runs the credit-threshold notification checks followed by the
`AI Response Ready` notification.  The low/urgent threshold emits are
unconditional; the AI-response emit is guarded by a room-existence check.
The handler contains three independently failable `Notification.create`
calls, each modelled by its own success oracle (`lowOk`, `urgentOk`,
`aiOk`); a throw lands in the shared catch block, which responds 500
`SEND_MESSAGE_ERROR` while keeping every write and emit already performed
(the message saves, the credit decrement, and any notification persisted
and emitted before the failing call). -/
def sendMessage (st : Store) (uid : String) (conversationId : Nat) (content : String)
    (aiContent : String) (lowOk urgentOk aiOk roomExists : Bool) (now : Nat) : HResult :=
  if st.credits < 1 then
    { status := 402, code := "INSUFFICIENT_CREDITS", store := st, trace := [] }
  else
    match findConv st conversationId uid with
    | none =>
      { status := 404, code := "CONVERSATION_NOT_FOUND", store := st, trace := [] }
    | some conv =>
      let userMsg : Msg :=
        { conversationId := conversationId, userId := uid, content := content, role := "user" }
      let st1 := bumpConv { st with msgs := st.msgs ++ [userMsg] } conversationId
      let st2 : Store := { st1 with credits := st1.credits - 1 }
      let aiMsg : Msg :=
        { conversationId := conversationId, userId := uid, content := aiContent,
          role := "assistant" }
      let st3 := bumpConv { st2 with msgs := st2.msgs ++ [aiMsg] } conversationId
      -- const updatedUser = await User.findById(...).select(credits)
      let c := st3.credits
      if c ≤ 1248 && 0 < c then
        if lowOk then
          let (n, st4) := notifCreate st3 uid "Low Credits Warning"
            ("You have " ++ toString c ++
              " credits remaining. Consider upgrading your plan.")
            "warning" "billing" "high" now
          sendMessageUrgentStep st4 uid conv c
            [NAction.persist n, NAction.emitRoom uid (payloadOf n)] urgentOk aiOk
            roomExists now
        else
          { status := 500, code := "SEND_MESSAGE_ERROR", store := st3, trace := [] }
      else
        sendMessageUrgentStep st3 uid conv c [] urgentOk aiOk roomExists now

/-- The unpersisted global system-maintenance payload used both by
`POST /notifications/system-maintenance` and the login 5000ms timer. -/
def maintenancePayload : NPayload :=
  { pid := none,
    message := "Scheduled maintenance will occur tonight from 11 PM to 1 AM EST. Some features may be temporarily unavailable.",
    ntype := "warning", read := false }

/-- The unpersisted global new-feature payload used both by
`POST /notifications/new-feature` and the login 8000ms timer. -/
def newFeaturePayload : NPayload :=
  { pid := none,
    message := "Real-time notifications are now live! You can receive instant updates about your conversations, credits, and system announcements.",
    ntype := "info", read := false }

/-- `POST /notifications/system-maintenance` (user routes): builds a payload
(no `Notification.create` at all), waits 2000ms, and emits it to every
connection; responds 200. -/
def systemMaintenanceHandler (st : Store) : HResult :=
  { status := 200, code := "", store := st, trace := [NAction.emitAll maintenancePayload] }

/-- `POST /notifications/new-feature` (user routes): same shape, global
emit of an unpersisted payload. -/
def newFeatureHandler (st : Store) : HResult :=
  { status := 200, code := "", store := st, trace := [NAction.emitAll newFeaturePayload] }

/-- `POST /login` (auth routes), success path with notifications in
real-time order.  `day1` is the calendar day at the `user.lastLogin = new
Date()` assignment; `day2` the calendar day at the first-login-of-the-day
check a few statements later (both truncated to midnight by the source, so
modelled directly as day numbers; `day1 < day2` only when the clock
crosses midnight between the two statements, since `lastLogin` was just
overwritten).  Trace order: Welcome Back persisted; if `day1 < day2` the
Good Morning notification is persisted and emitted immediately; Welcome
Back is emitted after a 1000ms delay; the 3000ms timer persists and emits
the Welcome Bonus notification; the 5000ms and 8000ms timers emit the two
unpersisted global payloads. -/
def login (st : Store) (userFound active passwordOk : Bool) (uid username : String)
    (credits : Int) (day1 day2 : Nat) (now : Nat) : HResult :=
  if !userFound then
    { status := 401, code := "INVALID_CREDENTIALS", store := st, trace := [] }
  else if !active then
    { status := 401, code := "ACCOUNT_DEACTIVATED", store := st, trace := [] }
  else if !passwordOk then
    { status := 401, code := "INVALID_CREDENTIALS", store := st, trace := [] }
  else
    let (wb, st1) := notifCreate st uid "Welcome Back!"
      ("Welcome back, " ++ username ++ "! You have " ++ toString credits ++
        " credits remaining.") "success" "system" "low" now
    let (gmTr, st2) :=
      if day1 < day2 then
        let (gm, st2) := notifCreate st1 uid "Good Morning!"
          ("Good morning, " ++ username ++ "! Ready to start your AI conversations?")
          "success" "system" "medium" now
        ([NAction.persist gm, NAction.emitRoom uid (payloadOf gm)], st2)
      else ([], st1)
    let (bonus, st3) := notifCreate st2 uid "Welcome Bonus!"
      "You have received 50 bonus credits for logging in today!" "success" "system"
      "medium" now
    { status := 200, code := "", store := st3,
      trace :=
        NAction.persist wb ::
          gmTr ++
            [NAction.emitRoom uid (payloadOf wb),
             NAction.persist bonus, NAction.emitRoom uid (payloadOf bonus),
             NAction.emitAll maintenancePayload, NAction.emitAll newFeaturePayload] }

/-- Walks a trace keeping the payloads of the notifications persisted so
far; every emit (to a room or to all connections) must be of an
already-persisted payload. -/
def coveredAux (seen : List NPayload) : List NAction → Bool
  | [] => true
  | NAction.persist n :: rest => coveredAux (payloadOf n :: seen) rest
  | NAction.emitRoom _ p :: rest => seen.contains p && coveredAux seen rest
  | NAction.emitAll p :: rest => seen.contains p && coveredAux seen rest

/-- Every emit of the trace delivers a previously persisted event. -/
def allEmitsPersisted (tr : List NAction) : Bool := coveredAux [] tr

/-- Like `coveredAux` but constraining only the per-user room emits. -/
def roomCoveredAux (seen : List NPayload) : List NAction → Bool
  | [] => true
  | NAction.persist n :: rest => roomCoveredAux (payloadOf n :: seen) rest
  | NAction.emitRoom _ p :: rest => seen.contains p && roomCoveredAux seen rest
  | NAction.emitAll _ :: rest => roomCoveredAux seen rest

/-- Every per-user room emit of the trace delivers a previously persisted
event (global emits unconstrained). -/
def roomEmitsPersisted (tr : List NAction) : Bool := roomCoveredAux [] tr

/-- Index of the first room emit of the trace whose payload id is `nid`. -/
def emitIdxOf : List NAction → Nat → Option Nat
  | [], _ => none
  | NAction.emitRoom _ p :: rest, nid =>
    if p.pid == some nid then some 0 else (emitIdxOf rest nid).map (fun i => i + 1)
  | _ :: rest, nid => (emitIdxOf rest nid).map (fun i => i + 1)

/-- Ids of the notifications persisted for `uid`, in dispatch order. -/
def persistedIds (tr : List NAction) (uid : String) : List Nat :=
  tr.filterMap (fun a =>
    match a with
    | NAction.persist n => if n.userId == uid then some n.nid else none
    | _ => none)

/-- For ids dispatched in this order, any two that are both live-delivered
are delivered in the same order. -/
def emitsInOrder (tr : List NAction) : List Nat → Bool
  | [] => true
  | a :: rest =>
    rest.all (fun b =>
      match emitIdxOf tr a, emitIdxOf tr b with
      | some i, some j => decide (i < j)
      | _, _ => true) && emitsInOrder tr rest

/-- FIFO per target: notifications dispatched (persisted) for `uid` in
order A then B are live-delivered to the user room in order A then B. -/
def fifoForUser (tr : List NAction) (uid : String) : Bool :=
  emitsInOrder tr (persistedIds tr uid)

/-- `{n with isRead := true, readAt := now}` — the only update the
mark-read operations apply. -/
def setRead (now : Nat) (n : Notif) : Notif := { n with isRead := true, readAt := some now }

/-- `findOneAndUpdate(filter, update)`: update the first matching document. -/
def updateFirst (p : Notif → Bool) (f : Notif → Notif) : List Notif → List Notif
  | [] => []
  | n :: rest => if p n then f n :: rest else n :: updateFirst p f rest

/-- `findOneAndDelete(filter)`: remove the first matching document. -/
def removeFirst (p : Notif → Bool) : List Notif → List Notif
  | [] => []
  | n :: rest => if p n then rest else n :: removeFirst p rest

/-- `PUT /notifications/:notificationId/read` (user routes):
`findOneAndUpdate({_id, userId}, {isRead: true, readAt: new Date()})`,
404 when no document matches. -/
def markNotificationRead (st : Store) (uid : String) (nid : Nat) (now : Nat) :
    Nat × Store :=
  let p : Notif → Bool := fun n => n.nid == nid && n.userId == uid
  if st.notifs.any p then
    (200, { st with notifs := updateFirst p (setRead now) st.notifs })
  else
    (404, st)

/-- `PUT /notifications/read-all` (user routes):
`updateMany({userId, isRead: false}, {isRead: true, readAt: new Date()})`. -/
def markAllNotificationsRead (st : Store) (uid : String) (now : Nat) : Store :=
  { st with notifs := st.notifs.map (fun n =>
      if n.userId == uid && !n.isRead then setRead now n else n) }

/-- `DELETE /notifications/:notificationId` (user routes):
`findOneAndDelete({_id, userId})`, 404 when no document matches. -/
def deleteNotification (st : Store) (uid : String) (nid : Nat) : Nat × Store :=
  let p : Notif → Bool := fun n => n.nid == nid && n.userId == uid
  if st.notifs.any p then
    (200, { st with notifs := removeFirst p st.notifs })
  else
    (404, st)

/-- `GET /notifications` read path for user `uid` (the
`{userId: req.user._id}` filter; sorting and pagination elided). -/
def userNotifications (st : Store) (uid : String) : List Notif :=
  st.notifs.filter (fun n => n.userId == uid)

/-! ## The socket.io connection registry (`backend/server.js`)

Room names in the source are raw strings; per-user rooms are the strings
`user:` followed by the user id, conversation rooms are the
client-supplied conversation ids.  We model the name space with a
two-constructor type: `RoomName.user u` stands for the string `user:u`
and `RoomName.conv s` for any other string.  `startsWith "user:"` becomes
matching on the first constructor and `replace "user:" ""` becomes its
argument (exact for every user id that does not itself contain `user:`,
which holds for the hex object ids the backend uses). -/

inductive RoomName where
  | user (uid : String)
  | conv (name : String)
  deriving Repr, DecidableEq

/-- A live room of the adapter: name and member socket ids in join order
(socket.io drops a room when its member set becomes empty). -/
structure Room where
  name : RoomName
  members : List Nat
  deriving Repr, DecidableEq

/-- Registry state: live sockets with their bound user id (set by the
authentication middleware), and the adapter rooms. -/
structure SrvState where
  socks : List (Nat × String)
  rooms : List Room
  deriving Repr, DecidableEq

def initState : SrvState := { socks := [], rooms := [] }

/-- `io.sockets.sockets.get(sid)?.userId`. -/
def lookupSock (socks : List (Nat × String)) (sid : Nat) : Option String :=
  match socks.find? (fun s => s.1 == sid) with
  | some s => some s.2
  | none => none

/-- `socket.join(room)`: idempotent; appends to join order; creates the
room when absent. -/
def joinRoom (st : SrvState) (sid : Nat) (rn : RoomName) : SrvState :=
  if st.rooms.any (fun r => r.name == rn) then
    { st with rooms := st.rooms.map (fun r =>
        if r.name == rn then
          if r.members.contains sid then r else { r with members := r.members ++ [sid] }
        else r) }
  else
    { st with rooms := st.rooms ++ [{ name := rn, members := [sid] }] }

/-- Remove empty rooms (the adapter deletes a room when its last member
leaves). -/
def dropEmpty (rooms : List Room) : List Room :=
  rooms.filter (fun r => !r.members.isEmpty)

/-- `socket.disconnect()` or the transport closing: the socket leaves all
rooms and is removed from the registry. -/
def disconnectSock (st : SrvState) (sid : Nat) : SrvState :=
  { socks := st.socks.filter (fun s => s.1 != sid),
    rooms := dropEmpty (st.rooms.map (fun r =>
      { r with members := r.members.filter (fun c => c != sid) })) }

/-- `cleanupOrphanedSockets(io)`: for every room whose name starts with
`user:`, make every member whose bound user id differs from the expected
id leave the room (members with no live socket handle are skipped by the
null check in the source). -/
def cleanupOrphanedSockets (st : SrvState) : SrvState :=
  { st with rooms := dropEmpty (st.rooms.map (fun r =>
      match r.name with
      | RoomName.user u =>
        { r with members := r.members.filter (fun c =>
            match lookupSock st.socks c with
            | some uid => uid == u
            | none => true) }
      | RoomName.conv _ => r)) }

/-- The socket authentication middleware (`io.use`): token required, jwt
verification must succeed (`verify` returns the decoded user id), and the
decoded user must exist in the database; any failure refuses the
connection with an authentication error before any event exchange. -/
def authMiddleware (verify : String → Option String) (userExists : String → Bool) :
    Option String → Except String String
  | none => Except.error "Authentication error: No token provided"
  | some t =>
    match verify t with
    | none => Except.error "Authentication error: Invalid token"
    | some uid =>
      if userExists uid then Except.ok uid else
        Except.error "Authentication error: User not found"

/-- `membersOf(u)`: members of the room `user:u` (empty when absent). -/
def membersOf (st : SrvState) (uid : String) : List Nat :=
  match st.rooms.find? (fun r => r.name == RoomName.user uid) with
  | some r => r.members
  | none => []

/-- The duplicate-connection check at the end of the connection handler:
if the user room now has more than one member, every member but the last
in join order (skipping the new socket itself) is disconnected. -/
def evictOldest (st : SrvState) (sid : Nat) (uid : String) : SrvState :=
  let ms := membersOf st uid
  if ms.length > 1 then
    (ms.dropLast.filter (fun c => c != sid)).foldl disconnectSock st
  else st

/-- The admitted-connection part of the handler: register the socket with
its bound identity, join its user room, run `cleanupOrphanedSockets`, then
the duplicate check. -/
def admitSock (st : SrvState) (sid : Nat) (uid : String) : SrvState :=
  let st1 : SrvState := { st with socks := st.socks ++ [(sid, uid)] }
  let st2 := joinRoom st1 sid (RoomName.user uid)
  let st3 := cleanupOrphanedSockets st2
  evictOldest st3 sid uid

/-- The `io.on(connection)` handler, run atomically (it contains no await):
on middleware failure the connection is refused and nothing changes; on
success `admitSock` runs.  Socket ids of live sockets are unique, so a
`connect` with an id already in use cannot occur; it is modelled as a
no-op. -/
def connectStep (verify : String → Option String) (userExists : String → Bool)
    (st : SrvState) (sid : Nat) (tok : Option String) : SrvState :=
  match authMiddleware verify userExists tok with
  | Except.error _ => st
  | Except.ok uid =>
    if st.socks.any (fun s => s.1 == sid) then st
    else admitSock st sid uid

/-- The `join-conversation` handler: `socket.join(conversationId)` with the
client-supplied room name, no check of any kind. -/
def joinConversationStep (st : SrvState) (sid : Nat) (rn : RoomName) : SrvState :=
  if st.socks.any (fun s => s.1 == sid) then joinRoom st sid rn else st

/-- Client-visible events driving the registry. -/
inductive SockEv where
  | connect (sid : Nat) (tok : Option String)
  | joinConversation (sid : Nat) (rn : RoomName)
  | disconnect (sid : Nat)
  deriving Repr, DecidableEq

def sockStep (verify : String → Option String) (userExists : String → Bool)
    (st : SrvState) : SockEv → SrvState
  | SockEv.connect sid tok => connectStep verify userExists st sid tok
  | SockEv.joinConversation sid rn => joinConversationStep st sid rn
  | SockEv.disconnect sid => disconnectSock st sid

def runSock (verify : String → Option String) (userExists : String → Bool)
    (st : SrvState) (evs : List SockEv) : SrvState :=
  evs.foldl (sockStep verify userExists) st

/-! ## Derived observations and invariant predicates -/

/-- How many notifications of the given category a handler persisted. -/
def persistCountOfType (tr : List NAction) (ty : String) : Nat :=
  (tr.filterMap (fun a =>
    match a with
    | NAction.persist n => some n.ntype
    | _ => none)).count ty

/-- How many `notification` events of the given category a handler emitted
to the user room. -/
def roomEmitCountOfType (tr : List NAction) (ty : String) : Nat :=
  (tr.filterMap (fun a =>
    match a with
    | NAction.emitRoom _ p => some p.ntype
    | _ => none)).count ty

/-- Equality of every notification attribute except the read flag and the
read timestamp. -/
def coreEq (a b : Notif) : Prop :=
  a.nid = b.nid ∧ a.userId = b.userId ∧ a.title = b.title ∧ a.message = b.message ∧
    a.ntype = b.ntype ∧ a.msource = b.msource ∧ a.priority = b.priority ∧
    a.createdAt = b.createdAt

/-- Traces made of connection churn only (no `join-conversation` events). -/
def churnOnly (evs : List SockEv) : Bool :=
  evs.all (fun ev =>
    match ev with
    | SockEv.joinConversation _ _ => false
    | _ => true)

/-- The registry states reachable by connection churn: room names are
distinct, and every room is a per-user room holding exactly one member,
a live socket bound to that very user. -/
def cleanInv (st : SrvState) : Prop :=
  (st.rooms.map Room.name).Nodup ∧
  ∀ r ∈ st.rooms, ∃ u c, r.name = RoomName.user u ∧ r.members = [c] ∧
    lookupSock st.socks c = some u

/-- A conversation used to instantiate the send-message theorems. -/
def c3Conv : Conv :=
  { cid := 0, title := "t", userId := "u1", isActive := true, messageCount := 0 }

/-- A store holding `c3Conv` and a 1249-credit balance. -/
def c3Store : Store :=
  { convs := [c3Conv], msgs := [], notifs := [], credits := 1249, nextId := 1 }

/-! ## Frame lemmas for the notification mutations -/

theorem coreEq_refl (a : Notif) : coreEq a a := by
  simp [coreEq]

theorem coreEq_setRead (now : Nat) (n : Notif) : coreEq n (setRead now n) := by
  simp [coreEq, setRead]

theorem forall2_coreEq_self (l : List Notif) : List.Forall₂ coreEq l l :=
  List.forall₂_same.mpr (fun x _ => coreEq_refl x)

theorem forall2_coreEq_updateFirst (p : Notif → Bool) (now : Nat) (l : List Notif) :
    List.Forall₂ coreEq l (updateFirst p (setRead now) l) := by
  induction l with
  | nil => exact List.Forall₂.nil
  | cons n rest ih =>
    by_cases h : p n
    · simpa [updateFirst, h] using
        List.Forall₂.cons (coreEq_setRead now n) (forall2_coreEq_self rest)
    · simpa [updateFirst, h] using List.Forall₂.cons (coreEq_refl n) ih

theorem forall2_coreEq_markAll (uid : String) (now : Nat) (l : List Notif) :
    List.Forall₂ coreEq l
      (l.map (fun n => if n.userId == uid && !n.isRead then setRead now n else n)) := by
  induction l with
  | nil => exact List.Forall₂.nil
  | cons n rest ih =>
    rw [List.map_cons]
    by_cases h : n.userId == uid && !n.isRead
    · rw [if_pos h]; exact List.Forall₂.cons (coreEq_setRead now n) ih
    · rw [if_neg h]; exact List.Forall₂.cons (coreEq_refl n) ih

theorem removeFirst_spec (p : Notif → Bool) (l : List Notif) :
    removeFirst p l = l ∨
      ∃ l1 n l2, l = l1 ++ n :: l2 ∧ p n = true ∧ removeFirst p l = l1 ++ l2 := by
  induction l with
  | nil => left; rfl
  | cons n rest ih =>
    by_cases h : p n
    · right
      exact ⟨[], n, rest, by simp, h, by simp [removeFirst, h]⟩
    · rcases ih with h1 | ⟨l1, m, l2, heq, hm, hres⟩
      · left; simp [removeFirst, h, h1]
      · right
        exact ⟨n :: l1, m, l2, by simp [heq], hm, by simp [removeFirst, h, hres]⟩

/-- C9: the mark-read operations change only the read flag and read
timestamp of stored notifications — target user, title, message, category
and created timestamp are untouched and no record disappears — and a
record is removed only by the explicit delete operation, which removes
exactly one matching record and leaves every other record unchanged. -/
theorem notification_mutation_frame (st : Store) (uid : String) (nid now : Nat) :
    List.Forall₂ coreEq st.notifs (markNotificationRead st uid nid now).2.notifs ∧
    List.Forall₂ coreEq st.notifs (markAllNotificationsRead st uid now).notifs ∧
    (markNotificationRead st uid nid now).2.convs = st.convs ∧
    (markNotificationRead st uid nid now).2.msgs = st.msgs ∧
    (markNotificationRead st uid nid now).2.credits = st.credits ∧
    (markAllNotificationsRead st uid now).convs = st.convs ∧
    (markAllNotificationsRead st uid now).msgs = st.msgs ∧
    (markAllNotificationsRead st uid now).credits = st.credits ∧
    ((deleteNotification st uid nid).2.notifs = st.notifs ∨
      ∃ l1 n l2, st.notifs = l1 ++ n :: l2 ∧ n.nid = nid ∧ n.userId = uid ∧
        (deleteNotification st uid nid).2.notifs = l1 ++ l2) := by
  refine ⟨?_, ?_, ?_, ?_, ?_, rfl, rfl, rfl, ?_⟩
  · unfold markNotificationRead
    by_cases h : st.notifs.any (fun n => n.nid == nid && n.userId == uid)
    · simpa [h] using forall2_coreEq_updateFirst _ now st.notifs
    · simpa [h] using forall2_coreEq_self st.notifs
  · exact forall2_coreEq_markAll uid now st.notifs
  · unfold markNotificationRead
    by_cases h : st.notifs.any (fun n => n.nid == nid && n.userId == uid) <;> simp [h]
  · unfold markNotificationRead
    by_cases h : st.notifs.any (fun n => n.nid == nid && n.userId == uid) <;> simp [h]
  · unfold markNotificationRead
    by_cases h : st.notifs.any (fun n => n.nid == nid && n.userId == uid) <;> simp [h]
  · unfold deleteNotification
    by_cases h : st.notifs.any (fun n => n.nid == nid && n.userId == uid)
    · rcases removeFirst_spec (fun n => n.nid == nid && n.userId == uid) st.notifs with
        h1 | ⟨l1, n, l2, heq, hn, hres⟩
      · left; simp [h, h1]
      · right
        have hn2 : n.nid = nid ∧ n.userId = uid := by
          simpa using hn
        exact ⟨l1, n, l2, heq, hn2.1, hn2.2, by simp [h, hres]⟩
    · left; simp [h]

/-- C10: a send-message request from a user whose credit balance is below
1 fails with 402 `INSUFFICIENT_CREDITS` and leaves the store untouched: no
user message, no AI message, no credit deduction, no notification
persisted and nothing emitted. -/
theorem sendMessage_insufficient_credits (st : Store) (uid : String) (cid : Nat)
    (content aiContent : String) (lowOk urgentOk aiOk roomExists : Bool) (now : Nat)
    (h : st.credits < 1) :
    (sendMessage st uid cid content aiContent lowOk urgentOk aiOk roomExists
      now).status = 402 ∧
    (sendMessage st uid cid content aiContent lowOk urgentOk aiOk roomExists
      now).code = "INSUFFICIENT_CREDITS" ∧
    (sendMessage st uid cid content aiContent lowOk urgentOk aiOk roomExists
      now).store = st ∧
    (sendMessage st uid cid content aiContent lowOk urgentOk aiOk roomExists
      now).trace = [] := by
  unfold sendMessage
  rw [if_pos h]
  exact ⟨rfl, rfl, rfl, rfl⟩

theorem sendMessage_insufficient_credits_witness :
    (0 : Int) < 1 ∧
    (sendMessage initStore "u1" 0 "hi" "reply" true true true true 3).status = 402 ∧
    (sendMessage initStore "u1" 0 "hi" "reply" true true true true 3).code =
      "INSUFFICIENT_CREDITS" ∧
    (sendMessage initStore "u1" 0 "hi" "reply" true true true true 3).store =
      initStore ∧
    (sendMessage initStore "u1" 0 "hi" "reply" true true true true 3).trace = [] :=
  ⟨by decide,
    sendMessage_insufficient_credits initStore "u1" 0 "hi" "reply" true true true true
      3 (by decide)⟩

/-- C8: dispatching the new-conversation notification while the target
user room has no live member (`roomExists = false`) still persists the
event — a later read of the user notifications returns it — and the
handler still responds 201; nothing is emitted, and that is not an
error. -/
theorem createConversation_persists_without_live_members (st : Store)
    (uid title : String) (now : Nat) :
    (createConversation st uid title true false now).status = 201 ∧
    ∃ n, (createConversation st uid title true false now).store.notifs =
        st.notifs ++ [n] ∧
      n.userId = uid ∧
      n ∈ userNotifications (createConversation st uid title true false now).store uid ∧
      (createConversation st uid title true false now).trace = [NAction.persist n] := by
  unfold createConversation notifCreate
  refine ⟨rfl, ?_⟩
  refine ⟨_, rfl, rfl, ?_, rfl⟩
  simp [userNotifications]

/-- C3 counterexample: when `Notification.create` throws inside the
create-conversation handler (`createOk = false`), the handler does skip
delivery, but it does not report success to its caller: the shared catch
block answers 500 `CREATE_CONVERSATION_ERROR`, not 201 — even though the
conversation itself was already saved. -/
theorem createConversation_storage_failure_returns_500 :
    (createConversation initStore "u1" "first chat" false true 0).trace = [] ∧
    (createConversation initStore "u1" "first chat" false true 0).status = 500 ∧
    (createConversation initStore "u1" "first chat" false true 0).status ≠ 201 ∧
    (createConversation initStore "u1" "first chat" false true 0).code =
      "CREATE_CONVERSATION_ERROR" ∧
    (createConversation initStore "u1" "first chat" false true 0).store.convs ≠ [] := by
  refine ⟨rfl, rfl, by decide, rfl, by decide⟩

/-- C3 amended: if persisting a notification fails, no delivery of that
failed event is attempted (nothing after the throw runs, so the failed
event is neither stored nor emitted, and every event that was delivered
had been persisted), but the triggering REST operation reports a 500
error to its own caller instead of success; work completed before the
failure is not rolled back — the conversation stays saved in the
create-conversation handler, and in the send-message handler the message
saves, the credit deduction, and any notification persisted and emitted
by an earlier create (such as the low-credits warning) are all kept. -/
theorem storage_failure_no_delivery_but_500 (st : Store)
    (uid title content aiContent : String) (cid : Nat) (roomExists : Bool)
    (now : Nat) (conv : Conv)
    (hcred : ¬ st.credits < 1) (hconv : findConv st cid uid = some conv) :
    ((createConversation st uid title false roomExists now).trace = [] ∧
     (createConversation st uid title false roomExists now).status = 500 ∧
     (createConversation st uid title false roomExists now).code =
       "CREATE_CONVERSATION_ERROR" ∧
     (createConversation st uid title false roomExists now).store.convs =
       st.convs ++
         [{ cid := st.nextId, title := title, userId := uid, isActive := true,
            messageCount := 0 }] ∧
     (createConversation st uid title false roomExists now).store.notifs = st.notifs) ∧
    (∀ lowOk urgentOk : Bool,
     (sendMessage st uid cid content aiContent lowOk urgentOk false roomExists
       now).status = 500 ∧
     (sendMessage st uid cid content aiContent lowOk urgentOk false roomExists
       now).code = "SEND_MESSAGE_ERROR" ∧
     (sendMessage st uid cid content aiContent lowOk urgentOk false roomExists
       now).store.msgs =
       st.msgs ++
         [{ conversationId := cid, userId := uid, content := content, role := "user" },
          { conversationId := cid, userId := uid, content := aiContent,
            role := "assistant" }] ∧
     (sendMessage st uid cid content aiContent lowOk urgentOk false roomExists
       now).store.credits = st.credits - 1 ∧
     persistCountOfType (sendMessage st uid cid content aiContent lowOk urgentOk false
       roomExists now).trace "success" = 0 ∧
     roomEmitCountOfType (sendMessage st uid cid content aiContent lowOk urgentOk false
       roomExists now).trace "success" = 0 ∧
     roomEmitsPersisted (sendMessage st uid cid content aiContent lowOk urgentOk false
       roomExists now).trace = true) ∧
    (0 < st.credits - 1 → st.credits - 1 ≤ 1248 → ¬ st.credits - 1 ≤ 1245 →
     ∀ urgentOk : Bool,
     ∃ n, n.ntype = "warning" ∧
       (sendMessage st uid cid content aiContent true urgentOk false roomExists
         now).trace = [NAction.persist n, NAction.emitRoom uid (payloadOf n)] ∧
       (sendMessage st uid cid content aiContent true urgentOk false roomExists
         now).store.notifs = st.notifs ++ [n] ∧
       (sendMessage st uid cid content aiContent true urgentOk false roomExists
         now).status = 500) := by
  refine ⟨?_, ?_, ?_⟩
  · unfold createConversation
    exact ⟨rfl, rfl, rfl, rfl, rfl⟩
  · intro lowOk urgentOk
    unfold sendMessage sendMessageUrgentStep sendMessageAiStep
    rw [if_neg hcred, hconv]
    simp only [bumpConv]
    by_cases h0 : 0 < st.credits - 1
    · by_cases hu : st.credits - 1 ≤ 1245
      · have hl2 : st.credits - 1 ≤ 1248 := by omega
        have hb1 : (decide (st.credits - 1 ≤ 1248) && decide (0 < st.credits - 1)) = true := by
          simp only [Bool.and_eq_true, decide_eq_true_eq]
          exact ⟨hl2, h0⟩
        have hb2 : (decide (st.credits - 1 ≤ 1245) && decide (0 < st.credits - 1)) = true := by
          simp only [Bool.and_eq_true, decide_eq_true_eq]
          exact ⟨hu, h0⟩
        rw [hb1, hb2]
        by_cases hlo : lowOk <;> by_cases huo : urgentOk <;>
          simp [hlo, huo, persistCountOfType, roomEmitCountOfType, roomEmitsPersisted,
            roomCoveredAux, notifCreate, payloadOf]
      · by_cases hl : st.credits - 1 ≤ 1248
        · have hb1 : (decide (st.credits - 1 ≤ 1248) && decide (0 < st.credits - 1)) = true := by
            simp only [Bool.and_eq_true, decide_eq_true_eq]
            exact ⟨hl, h0⟩
          have hb2 : (decide (st.credits - 1 ≤ 1245) && decide (0 < st.credits - 1)) = false := by
            simp only [Bool.and_eq_false_iff, decide_eq_false_iff_not]
            left
            exact hu
          rw [hb1, hb2]
          by_cases hlo : lowOk <;>
            simp [hlo, persistCountOfType, roomEmitCountOfType, roomEmitsPersisted,
              roomCoveredAux, notifCreate, payloadOf]
        · have hb1 : (decide (st.credits - 1 ≤ 1248) && decide (0 < st.credits - 1)) = false := by
            simp only [Bool.and_eq_false_iff, decide_eq_false_iff_not]
            left
            exact hl
          have hb2 : (decide (st.credits - 1 ≤ 1245) && decide (0 < st.credits - 1)) = false := by
            simp only [Bool.and_eq_false_iff, decide_eq_false_iff_not]
            left
            exact hu
          rw [hb1, hb2]
          simp [persistCountOfType, roomEmitCountOfType, roomEmitsPersisted,
            roomCoveredAux]
    · have hb1 : (decide (st.credits - 1 ≤ 1248) && decide (0 < st.credits - 1)) = false := by
        simp only [Bool.and_eq_false_iff, decide_eq_false_iff_not]
        right
        exact h0
      have hb2 : (decide (st.credits - 1 ≤ 1245) && decide (0 < st.credits - 1)) = false := by
        simp only [Bool.and_eq_false_iff, decide_eq_false_iff_not]
        right
        exact h0
      rw [hb1, hb2]
      simp [persistCountOfType, roomEmitCountOfType, roomEmitsPersisted,
        roomCoveredAux]
  · intro h0 hl hu urgentOk
    unfold sendMessage sendMessageUrgentStep sendMessageAiStep
    rw [if_neg hcred, hconv]
    simp only [bumpConv]
    have hb1 : (decide (st.credits - 1 ≤ 1248) && decide (0 < st.credits - 1)) = true := by
      simp only [Bool.and_eq_true, decide_eq_true_eq]
      exact ⟨hl, h0⟩
    have hb2 : (decide (st.credits - 1 ≤ 1245) && decide (0 < st.credits - 1)) = false := by
      simp only [Bool.and_eq_false_iff, decide_eq_false_iff_not]
      left
      exact hu
    rw [hb1, hb2]
    refine ⟨Notif.mk st.nextId uid "Low Credits Warning"
      ("You have " ++ toString (st.credits - 1) ++
        " credits remaining. Consider upgrading your plan.")
      "warning" "billing" "high" false none now, ?_, ?_, ?_, ?_⟩ <;>
      simp [notifCreate, payloadOf]

theorem storage_failure_no_delivery_but_500_witness :
    ¬ (c3Store.credits < 1) ∧ findConv c3Store 0 "u1" = some c3Conv ∧
    (createConversation c3Store "u1" "t2" false true 9).status = 500 ∧
    (sendMessage c3Store "u1" 0 "hi" "reply" true true false true 9).status = 500 ∧
    (∃ n, n.ntype = "warning" ∧
      (sendMessage c3Store "u1" 0 "hi" "reply" true true false true 9).trace =
        [NAction.persist n, NAction.emitRoom "u1" (payloadOf n)] ∧
      (sendMessage c3Store "u1" 0 "hi" "reply" true true false true 9).store.notifs =
        c3Store.notifs ++ [n] ∧
      (sendMessage c3Store "u1" 0 "hi" "reply" true true false true 9).status = 500) := by
  have h := storage_failure_no_delivery_but_500 c3Store "u1" "t2" "hi" "reply" 0 true 9
    c3Conv (by decide) (by decide)
  exact ⟨by decide, by decide, h.1.2.1, (h.2.1 true true).1,
    h.2.2 (by decide) (by decide) (by decide) true⟩

/-- C2 counterexample: the system-maintenance route emits a `notification`
event to every connection without ever persisting it — the store is
unchanged and the trace consists of a single global emit of a payload no
persist precedes — contradicting the never-deliver-an-unpersisted-event
rule. -/
theorem system_maintenance_emits_unpersisted :
    (systemMaintenanceHandler initStore).trace = [NAction.emitAll maintenancePayload] ∧
    (systemMaintenanceHandler initStore).store = initStore ∧
    (systemMaintenanceHandler initStore).status = 200 ∧
    allEmitsPersisted (systemMaintenanceHandler initStore).trace = false :=
  ⟨rfl, rfl, rfl, rfl⟩

/-- C2 amended: per-user room emits do respect persist-before-deliver in
every modelled handler; only the global broadcast emits (the
system-maintenance and new-feature payloads, also fired by the login
timers) are delivered without ever being persisted. -/
theorem room_emits_only_after_persist (st1 st2 st3 st4 st5 : Store)
    (uid title content aiContent uid2 username : String) (cid : Nat)
    (cOk lowOk urgentOk aiOk rEx uf act pOk : Bool) (credits : Int)
    (day1 day2 now : Nat) :
    roomEmitsPersisted (createConversation st1 uid title cOk rEx now).trace = true ∧
    roomEmitsPersisted (sendMessage st2 uid cid content aiContent lowOk urgentOk aiOk
      rEx now).trace = true ∧
    roomEmitsPersisted (login st3 uf act pOk uid2 username credits day1 day2 now).trace =
      true ∧
    roomEmitsPersisted (systemMaintenanceHandler st4).trace = true ∧
    roomEmitsPersisted (newFeatureHandler st5).trace = true := by
  refine ⟨?_, ?_, ?_, rfl, rfl⟩
  · unfold createConversation
    by_cases hc : cOk
    · by_cases hr : rEx <;>
        simp [hc, hr, roomEmitsPersisted, roomCoveredAux, notifCreate]
    · simp [hc, roomEmitsPersisted, roomCoveredAux]
  · unfold sendMessage sendMessageUrgentStep sendMessageAiStep
    by_cases h1 : st2.credits < 1
    · simp [h1, roomEmitsPersisted, roomCoveredAux]
    · rw [if_neg h1]
      cases hfc : findConv st2 cid uid with
      | none => simp [roomEmitsPersisted, roomCoveredAux]
      | some conv =>
        simp only [bumpConv]
        by_cases h0 : 0 < st2.credits - 1
        · by_cases hu : st2.credits - 1 ≤ 1245
          · have hl2 : st2.credits - 1 ≤ 1248 := by omega
            have hb1 : (decide (st2.credits - 1 ≤ 1248) && decide (0 < st2.credits - 1)) = true := by
              simp only [Bool.and_eq_true, decide_eq_true_eq]
              exact ⟨hl2, h0⟩
            have hb2 : (decide (st2.credits - 1 ≤ 1245) && decide (0 < st2.credits - 1)) = true := by
              simp only [Bool.and_eq_true, decide_eq_true_eq]
              exact ⟨hu, h0⟩
            rw [hb1, hb2]
            by_cases hlo : lowOk <;> by_cases huo : urgentOk <;>
              by_cases hao : aiOk <;> by_cases hr : rEx <;>
              simp [hlo, huo, hao, hr, roomEmitsPersisted, roomCoveredAux, notifCreate]
          · by_cases hl : st2.credits - 1 ≤ 1248
            · have hb1 : (decide (st2.credits - 1 ≤ 1248) && decide (0 < st2.credits - 1)) = true := by
                simp only [Bool.and_eq_true, decide_eq_true_eq]
                exact ⟨hl, h0⟩
              have hb2 : (decide (st2.credits - 1 ≤ 1245) && decide (0 < st2.credits - 1)) = false := by
                simp only [Bool.and_eq_false_iff, decide_eq_false_iff_not]
                left
                exact hu
              rw [hb1, hb2]
              by_cases hlo : lowOk <;> by_cases hao : aiOk <;> by_cases hr : rEx <;>
                simp [hlo, hao, hr, roomEmitsPersisted, roomCoveredAux, notifCreate]
            · have hb1 : (decide (st2.credits - 1 ≤ 1248) && decide (0 < st2.credits - 1)) = false := by
                simp only [Bool.and_eq_false_iff, decide_eq_false_iff_not]
                left
                exact hl
              have hb2 : (decide (st2.credits - 1 ≤ 1245) && decide (0 < st2.credits - 1)) = false := by
                simp only [Bool.and_eq_false_iff, decide_eq_false_iff_not]
                left
                exact hu
              rw [hb1, hb2]
              by_cases hao : aiOk <;> by_cases hr : rEx <;>
                simp [hao, hr, roomEmitsPersisted, roomCoveredAux, notifCreate]
        · have hb1 : (decide (st2.credits - 1 ≤ 1248) && decide (0 < st2.credits - 1)) = false := by
            simp only [Bool.and_eq_false_iff, decide_eq_false_iff_not]
            right
            exact h0
          have hb2 : (decide (st2.credits - 1 ≤ 1245) && decide (0 < st2.credits - 1)) = false := by
            simp only [Bool.and_eq_false_iff, decide_eq_false_iff_not]
            right
            exact h0
          rw [hb1, hb2]
          by_cases hao : aiOk <;> by_cases hr : rEx <;>
            simp [hao, hr, roomEmitsPersisted, roomCoveredAux, notifCreate]
  · unfold login
    by_cases h1 : uf
    · by_cases h2 : act
      · by_cases h3 : pOk
        · by_cases hd : day1 < day2 <;>
            simp [h1, h2, h3, hd, roomEmitsPersisted, roomCoveredAux, notifCreate]
        · simp [h1, h2, h3, roomEmitsPersisted, roomCoveredAux]
      · simp [h1, h2, roomEmitsPersisted, roomCoveredAux]
    · simp [h1, roomEmitsPersisted, roomCoveredAux]

theorem sendMessage_counts_char (st : Store) (uid content aiContent : String)
    (cid : Nat) (rEx : Bool) (now : Nat) (conv : Conv)
    (hcred : ¬ st.credits < 1) (hconv : findConv st cid uid = some conv) :
    persistCountOfType (sendMessage st uid cid content aiContent true true true rEx now).trace
        "warning" =
      (if 0 < st.credits - 1 ∧ st.credits - 1 ≤ 1248 then 1 else 0) ∧
    roomEmitCountOfType (sendMessage st uid cid content aiContent true true true rEx now).trace
        "warning" =
      (if 0 < st.credits - 1 ∧ st.credits - 1 ≤ 1248 then 1 else 0) ∧
    persistCountOfType (sendMessage st uid cid content aiContent true true true rEx now).trace
        "error" =
      (if 0 < st.credits - 1 ∧ st.credits - 1 ≤ 1245 then 1 else 0) ∧
    roomEmitCountOfType (sendMessage st uid cid content aiContent true true true rEx now).trace
        "error" =
      (if 0 < st.credits - 1 ∧ st.credits - 1 ≤ 1245 then 1 else 0) := by
  unfold sendMessage sendMessageUrgentStep sendMessageAiStep
  rw [if_neg hcred, hconv]
  simp only [bumpConv]
  by_cases h0 : 0 < st.credits - 1
  · by_cases hu : st.credits - 1 ≤ 1245
    · have hlow : st.credits - 1 ≤ 1248 := by omega
      have hb1 : (decide (st.credits - 1 ≤ 1248) && decide (0 < st.credits - 1)) = true := by
        simp only [Bool.and_eq_true, decide_eq_true_eq]
        exact ⟨hlow, h0⟩
      have hb2 : (decide (st.credits - 1 ≤ 1245) && decide (0 < st.credits - 1)) = true := by
        simp only [Bool.and_eq_true, decide_eq_true_eq]
        exact ⟨hu, h0⟩
      rw [hb1, hb2]
      by_cases hr : rEx <;>
        simp [hr, persistCountOfType, roomEmitCountOfType, notifCreate, payloadOf,
          h0, hu, hlow]
    · by_cases hl : st.credits - 1 ≤ 1248
      · have hb1 : (decide (st.credits - 1 ≤ 1248) && decide (0 < st.credits - 1)) = true := by
          simp only [Bool.and_eq_true, decide_eq_true_eq]
          exact ⟨hl, h0⟩
        have hb2 : (decide (st.credits - 1 ≤ 1245) && decide (0 < st.credits - 1)) = false := by
          simp only [Bool.and_eq_false_iff, decide_eq_false_iff_not]
          left
          exact hu
        rw [hb1, hb2]
        by_cases hr : rEx <;>
          simp [hr, persistCountOfType, roomEmitCountOfType, notifCreate, payloadOf,
            h0, hu, hl]
      · have hb1 : (decide (st.credits - 1 ≤ 1248) && decide (0 < st.credits - 1)) = false := by
          simp only [Bool.and_eq_false_iff, decide_eq_false_iff_not]
          left
          exact hl
        have hb2 : (decide (st.credits - 1 ≤ 1245) && decide (0 < st.credits - 1)) = false := by
          simp only [Bool.and_eq_false_iff, decide_eq_false_iff_not]
          left
          exact hu
        rw [hb1, hb2]
        by_cases hr : rEx <;>
          simp [hr, persistCountOfType, roomEmitCountOfType, notifCreate, payloadOf,
            h0, hu, hl]
  · have hb1 : (decide (st.credits - 1 ≤ 1248) && decide (0 < st.credits - 1)) = false := by
      simp only [Bool.and_eq_false_iff, decide_eq_false_iff_not]
      right
      exact h0
    have hb2 : (decide (st.credits - 1 ≤ 1245) && decide (0 < st.credits - 1)) = false := by
      simp only [Bool.and_eq_false_iff, decide_eq_false_iff_not]
      right
      exact h0
    rw [hb1, hb2]
    by_cases hr : rEx <;>
      simp [hr, persistCountOfType, roomEmitCountOfType, notifCreate, payloadOf, h0]

/-- C1: after a successful credit-decrementing send-message operation with
resulting balance `c = st.credits - 1`: if `0 < c ≤ 1248` exactly one
warning-category notification is persisted and emitted; if additionally
`0 < c ≤ 1245` exactly one error-category notification is persisted and
emitted in addition to (not replacing) the warning one; in particular a
drop from 1249 to 1248 gives exactly one warning and no error event, and a
drop from 1246 to 1245 gives exactly one warning and one error event. -/
theorem sendMessage_credit_threshold_events (st : Store)
    (uid content aiContent : String) (cid : Nat) (rEx : Bool) (now : Nat) (conv : Conv)
    (hcred : ¬ st.credits < 1) (hconv : findConv st cid uid = some conv) :
    (0 < st.credits - 1 → st.credits - 1 ≤ 1248 →
      persistCountOfType (sendMessage st uid cid content aiContent true true true rEx now).trace
          "warning" = 1 ∧
      roomEmitCountOfType (sendMessage st uid cid content aiContent true true true rEx now).trace
          "warning" = 1) ∧
    (0 < st.credits - 1 → st.credits - 1 ≤ 1245 →
      persistCountOfType (sendMessage st uid cid content aiContent true true true rEx now).trace
          "error" = 1 ∧
      roomEmitCountOfType (sendMessage st uid cid content aiContent true true true rEx now).trace
          "error" = 1 ∧
      persistCountOfType (sendMessage st uid cid content aiContent true true true rEx now).trace
          "warning" = 1) ∧
    (st.credits = 1249 →
      persistCountOfType (sendMessage st uid cid content aiContent true true true rEx now).trace
          "warning" = 1 ∧
      persistCountOfType (sendMessage st uid cid content aiContent true true true rEx now).trace
          "error" = 0) ∧
    (st.credits = 1246 →
      persistCountOfType (sendMessage st uid cid content aiContent true true true rEx now).trace
          "warning" = 1 ∧
      persistCountOfType (sendMessage st uid cid content aiContent true true true rEx now).trace
          "error" = 1) := by
  obtain ⟨hpw, hew, hpe, hee⟩ :=
    sendMessage_counts_char st uid content aiContent cid rEx now conv hcred hconv
  refine ⟨?_, ?_, ?_, ?_⟩
  · intro h1 h2
    rw [hpw, hew, if_pos ⟨h1, h2⟩]
    exact ⟨rfl, rfl⟩
  · intro h1 h2
    rw [hpe, hee, hpw, if_pos ⟨h1, h2⟩, if_pos ⟨h1, by omega⟩]
    exact ⟨rfl, rfl, rfl⟩
  · intro h
    rw [hpw, hpe, if_pos (by constructor <;> omega), if_neg (by omega)]
    exact ⟨rfl, rfl⟩
  · intro h
    rw [hpw, hpe, if_pos (by constructor <;> omega), if_pos (by constructor <;> omega)]
    exact ⟨rfl, rfl⟩

theorem sendMessage_credit_threshold_events_witness :
    ¬ (c3Store.credits < 1) ∧ findConv c3Store 0 "u1" = some c3Conv ∧
    (c3Store.credits = 1249 →
      persistCountOfType (sendMessage c3Store "u1" 0 "hi" "reply" true true true true 4).trace
          "warning" = 1 ∧
      persistCountOfType (sendMessage c3Store "u1" 0 "hi" "reply" true true true true 4).trace
          "error" = 0) := by
  have h := sendMessage_credit_threshold_events c3Store "u1" "hi" "reply" 0 true 4 c3Conv
    (by decide) (by decide)
  exact ⟨by decide, by decide, h.2.2.1⟩

theorem beq_some_nat_ne (k m : Nat) (h : ¬ k = m) :
    ((some k : Option Nat) == some m) = false := by
  rw [beq_eq_false_iff_ne]
  simp [h]

/-- C4 counterexample: in the login handler, when the clock crosses
midnight between the `lastLogin` assignment and the first-login-of-the-day
check (`day1 < day2`), the Welcome Back notification (dispatched first,
id 0) and the Good Morning notification (dispatched second, id 1) are
live-delivered in the opposite order: Good Morning is emitted at trace
position 2 and Welcome Back only at position 3, so per-target FIFO is
violated. -/
theorem login_good_morning_overtakes_welcome_back :
    persistedIds (login initStore true true true "u1" "alice" 1250 0 1 5).trace "u1" =
      [0, 1, 2] ∧
    emitIdxOf (login initStore true true true "u1" "alice" 1250 0 1 5).trace 0 =
      some 3 ∧
    emitIdxOf (login initStore true true true "u1" "alice" 1250 0 1 5).trace 1 =
      some 2 ∧
    fifoForUser (login initStore true true true "u1" "alice" 1250 0 1 5).trace "u1" =
      false := by
  refine ⟨by decide, by decide, by decide, by decide⟩

/-- C4 amended: delivery order matches dispatch order in the modelled
handlers except for the login first-login-of-the-day branch; when that
branch is not taken (`¬ day1 < day2`) the login handler is FIFO, and the
create-conversation and send-message handlers are FIFO unconditionally. -/
theorem delivery_order_matches_dispatch_order (st1 st2 st3 : Store)
    (uid title content aiContent username : String) (cid : Nat)
    (cOk lowOk urgentOk aiOk rEx uf act pOk : Bool) (credits : Int)
    (day1 day2 now : Nat) (hd : ¬ day1 < day2) :
    fifoForUser (login st3 uf act pOk uid username credits day1 day2 now).trace uid =
      true ∧
    fifoForUser (createConversation st1 uid title cOk rEx now).trace uid = true ∧
    fifoForUser (sendMessage st2 uid cid content aiContent lowOk urgentOk aiOk rEx
      now).trace uid = true := by
  refine ⟨?_, ?_, ?_⟩
  · unfold login
    by_cases h1 : uf
    · by_cases h2 : act
      · by_cases h3 : pOk
        · simp only [h1, h2, h3, Bool.not_true, Bool.false_eq_true, if_false, if_neg hd]
          simp [fifoForUser, persistedIds, emitsInOrder, emitIdxOf, notifCreate,
            payloadOf, beq_some_nat_ne, add_assoc, self_eq_add_right, add_right_eq_self]
        · simp [h1, h2, h3, fifoForUser, persistedIds, emitsInOrder]
      · simp [h1, h2, fifoForUser, persistedIds, emitsInOrder]
    · simp [h1, fifoForUser, persistedIds, emitsInOrder]
  · unfold createConversation
    by_cases hc : cOk
    · by_cases hr : rEx <;>
        simp [hc, hr, fifoForUser, persistedIds, emitsInOrder, emitIdxOf, notifCreate,
          payloadOf]
    · simp [hc, fifoForUser, persistedIds, emitsInOrder]
  · unfold sendMessage sendMessageUrgentStep sendMessageAiStep
    by_cases h1 : st2.credits < 1
    · simp [h1, fifoForUser, persistedIds, emitsInOrder]
    · rw [if_neg h1]
      cases hfc : findConv st2 cid uid with
      | none => simp [fifoForUser, persistedIds, emitsInOrder]
      | some conv =>
        simp only [bumpConv]
        by_cases h0 : 0 < st2.credits - 1
        · by_cases hu : st2.credits - 1 ≤ 1245
          · have hl2 : st2.credits - 1 ≤ 1248 := by omega
            have hb1 : (decide (st2.credits - 1 ≤ 1248) && decide (0 < st2.credits - 1)) = true := by
              simp only [Bool.and_eq_true, decide_eq_true_eq]
              exact ⟨hl2, h0⟩
            have hb2 : (decide (st2.credits - 1 ≤ 1245) && decide (0 < st2.credits - 1)) = true := by
              simp only [Bool.and_eq_true, decide_eq_true_eq]
              exact ⟨hu, h0⟩
            rw [hb1, hb2]
            by_cases hlo : lowOk <;> by_cases huo : urgentOk <;>
              by_cases hao : aiOk <;> by_cases hr : rEx <;>
              simp [hlo, huo, hao, hr, fifoForUser, persistedIds, emitsInOrder,
                emitIdxOf, notifCreate, payloadOf, beq_some_nat_ne, add_assoc,
                self_eq_add_right, add_right_eq_self]
          · by_cases hl : st2.credits - 1 ≤ 1248
            · have hb1 : (decide (st2.credits - 1 ≤ 1248) && decide (0 < st2.credits - 1)) = true := by
                simp only [Bool.and_eq_true, decide_eq_true_eq]
                exact ⟨hl, h0⟩
              have hb2 : (decide (st2.credits - 1 ≤ 1245) && decide (0 < st2.credits - 1)) = false := by
                simp only [Bool.and_eq_false_iff, decide_eq_false_iff_not]
                left
                exact hu
              rw [hb1, hb2]
              by_cases hlo : lowOk <;> by_cases hao : aiOk <;> by_cases hr : rEx <;>
                simp [hlo, hao, hr, fifoForUser, persistedIds, emitsInOrder,
                  emitIdxOf, notifCreate, payloadOf, beq_some_nat_ne, add_assoc,
                  self_eq_add_right, add_right_eq_self]
            · have hb1 : (decide (st2.credits - 1 ≤ 1248) && decide (0 < st2.credits - 1)) = false := by
                simp only [Bool.and_eq_false_iff, decide_eq_false_iff_not]
                left
                exact hl
              have hb2 : (decide (st2.credits - 1 ≤ 1245) && decide (0 < st2.credits - 1)) = false := by
                simp only [Bool.and_eq_false_iff, decide_eq_false_iff_not]
                left
                exact hu
              rw [hb1, hb2]
              by_cases hao : aiOk <;> by_cases hr : rEx <;>
                simp [hao, hr, fifoForUser, persistedIds, emitsInOrder, emitIdxOf,
                  notifCreate, payloadOf, beq_some_nat_ne, add_assoc,
                  self_eq_add_right, add_right_eq_self]
        · have hb1 : (decide (st2.credits - 1 ≤ 1248) && decide (0 < st2.credits - 1)) = false := by
            simp only [Bool.and_eq_false_iff, decide_eq_false_iff_not]
            right
            exact h0
          have hb2 : (decide (st2.credits - 1 ≤ 1245) && decide (0 < st2.credits - 1)) = false := by
            simp only [Bool.and_eq_false_iff, decide_eq_false_iff_not]
            right
            exact h0
          rw [hb1, hb2]
          by_cases hao : aiOk <;> by_cases hr : rEx <;>
            simp [hao, hr, fifoForUser, persistedIds, emitsInOrder, emitIdxOf,
              notifCreate, payloadOf, beq_some_nat_ne, add_assoc,
              self_eq_add_right, add_right_eq_self]

theorem delivery_order_matches_dispatch_order_witness :
    ¬ (1 < 1) ∧
    fifoForUser (login initStore true true true "u1" "alice" 1250 1 1 5).trace "u1" =
      true ∧
    fifoForUser (createConversation initStore "u1" "t" true true 5).trace "u1" = true ∧
    fifoForUser (sendMessage c3Store "u1" 0 "hi" "reply" true true true true 5).trace
      "u1" = true := by
  have h := delivery_order_matches_dispatch_order initStore c3Store initStore
    "u1" "t" "hi" "reply" "alice" 0 true true true true true true true true 1250 1 1 5
    (by decide)
  exact ⟨by decide, h.1, h.2.1, h.2.2⟩


theorem lookupSock_append_of_found (socks : List (Nat × String)) (x : Nat × String)
    (c : Nat) (u : String) (h : lookupSock socks c = some u) :
    lookupSock (socks ++ [x]) c = some u := by
  unfold lookupSock at h ⊢
  induction socks with
  | nil => simp [List.find?] at h
  | cons s rest ih =>
    by_cases hs : s.1 == c
    · simp [List.find?, hs] at h ⊢
      exact h
    · simp only [List.cons_append, List.find?, hs] at h ⊢
      exact ih h

theorem lookupSock_append_fresh (socks : List (Nat × String)) (sid : Nat) (uid : String)
    (h : ∀ s ∈ socks, ¬ s.1 = sid) :
    lookupSock (socks ++ [(sid, uid)]) sid = some uid := by
  unfold lookupSock
  induction socks with
  | nil => simp [List.find?]
  | cons s rest ih =>
    have hs : ¬ s.1 = sid := h s (by simp)
    simp only [List.cons_append, List.find?, show (s.1 == sid) = false by simp [hs]]
    exact ih (fun x hx => h x (by simp [hx]))

theorem lookupSock_filter_ne (socks : List (Nat × String)) (c x : Nat) (h : ¬ c = x) :
    lookupSock (socks.filter (fun s => s.1 != x)) c = lookupSock socks c := by
  unfold lookupSock
  induction socks with
  | nil => simp
  | cons s rest ih =>
    by_cases hsx : s.1 = x
    · have h2 : (s.1 == c) = false := by
        rw [beq_eq_false_iff_ne]
        omega
      simp only [List.filter_cons, show (s.1 != x) = false by simp [hsx],
        Bool.false_eq_true, if_false, List.find?, h2]
      exact ih
    · by_cases hsc : (s.1 == c) = true
      · simp [List.filter_cons, show (s.1 != x) = true by simp [hsx], List.find?, hsc]
      · simp only [List.filter_cons, show (s.1 != x) = true by simp [hsx], if_true,
          List.find?, show (s.1 == c) = false by simp_all]
        exact ih

theorem lookupSock_mem (socks : List (Nat × String)) (c : Nat) (u : String)
    (h : lookupSock socks c = some u) : ∃ s ∈ socks, s.1 = c ∧ s.2 = u := by
  unfold lookupSock at h
  cases hf : socks.find? (fun s => s.1 == c) with
  | none => rw [hf] at h; exact absurd h (by simp)
  | some s =>
    rw [hf] at h
    have h1 := List.find?_some hf
    have h2 := List.mem_of_find?_eq_some hf
    simp at h1 h
    exact ⟨s, h2, h1, by rw [h]⟩

theorem map_id_of {α : Type} (l : List α) (f : α → α) (h : ∀ a ∈ l, f a = a) :
    l.map f = l := by
  induction l with
  | nil => rfl
  | cons a rest ih =>
    simp only [List.map_cons, h a (by simp)]
    rw [ih (fun x hx => h x (by simp [hx]))]

theorem find?_append_none (l1 l2 : List Room) (p : Room → Bool)
    (h : ∀ r ∈ l1, p r = false) : (l1 ++ l2).find? p = l2.find? p := by
  induction l1 with
  | nil => simp
  | cons r rest ih =>
    simp only [List.cons_append, List.find?, h r (by simp)]
    exact ih (fun x hx => h x (by simp [hx]))

theorem find?_map_name_preserving (f : Room → Room) (hf : ∀ r, (f r).name = r.name)
    (l : List Room) (n : RoomName) :
    (l.map f).find? (fun r => r.name == n) = (l.find? (fun r => r.name == n)).map f := by
  induction l with
  | nil => simp
  | cons r rest ih =>
    simp only [List.map_cons, List.find?, hf]
    by_cases hr : (r.name == n) = true
    · simp [hr]
    · simp [hr, ih]

theorem cleanupOrphanedSockets_id (st : SrvState)
    (h : ∀ r ∈ st.rooms, r.members ≠ [] ∧
      ∀ u, r.name = RoomName.user u → ∀ c ∈ r.members, lookupSock st.socks c = some u) :
    cleanupOrphanedSockets st = st := by
  unfold cleanupOrphanedSockets
  have hmap : st.rooms.map (fun r =>
      match r.name with
      | RoomName.user u =>
        { r with members := r.members.filter (fun c =>
            match lookupSock st.socks c with
            | some uid => uid == u
            | none => true) }
      | RoomName.conv _ => r) = st.rooms := by
    apply map_id_of
    intro r hr
    obtain ⟨hne, hlook⟩ := h r hr
    cases r with
    | mk name members =>
      cases name with
      | user u =>
        simp only []
        have : members.filter (fun c =>
            match lookupSock st.socks c with
            | some uid => uid == u
            | none => true) = members := by
          rw [List.filter_eq_self]
          intro c hc
          rw [hlook u rfl c hc]
          simp
        rw [this]
      | conv s => rfl
  rw [hmap]
  have hde : dropEmpty st.rooms = st.rooms := by
    unfold dropEmpty
    rw [List.filter_eq_self]
    intro r hr
    simp [List.isEmpty_iff, (h r hr).1]
  rw [hde]

theorem map_eq_map_of {α β : Type} (l : List α) (f g : α → β) (h : ∀ a ∈ l, f a = g a) :
    l.map f = l.map g := by
  induction l with
  | nil => rfl
  | cons a rest ih =>
    simp only [List.map_cons, h a (by simp)]
    rw [ih (fun x hx => h x (by simp [hx]))]

theorem eq_of_nodup_names (l : List Room) (h : (l.map Room.name).Nodup)
    (r1 r0 : Room) (h1 : r1 ∈ l) (h0 : r0 ∈ l) (he : r1.name = r0.name) : r1 = r0 := by
  induction l with
  | nil => exact absurd h1 (by simp)
  | cons a rest ih =>
    simp only [List.map_cons, List.nodup_cons] at h
    rcases List.mem_cons.mp h1 with rfl | h1m
    · rcases List.mem_cons.mp h0 with rfl | h0m
      · rfl
      · exact absurd (he ▸ List.mem_map_of_mem Room.name h0m) h.1
    · rcases List.mem_cons.mp h0 with rfl | h0m
      · exact absurd (he ▸ List.mem_map_of_mem Room.name h1m) h.1
      · exact ih h.2 h1m h0m

theorem cleanInv_disconnectSock (st : SrvState) (x : Nat) (h : cleanInv st) :
    cleanInv (disconnectSock st x) := by
  obtain ⟨hnodup, hrooms⟩ := h
  constructor
  · have hsub : List.Sublist (dropEmpty ((st.rooms.map (fun r =>
        { r with members := r.members.filter (fun c => c != x) }))))
        (st.rooms.map (fun r => { r with members := r.members.filter (fun c => c != x) })) :=
      List.filter_sublist _
    have hsub2 := hsub.map Room.name
    rw [List.map_map] at hsub2
    have hmn : st.rooms.map (Room.name ∘ (fun r =>
        { r with members := r.members.filter (fun c => c != x) })) =
        st.rooms.map Room.name := by
      apply map_eq_map_of
      intro a _
      rfl
    rw [hmn] at hsub2
    exact List.Nodup.sublist hsub2 hnodup
  · intro r hr
    have hr2 : r ∈ st.rooms.map (fun r =>
        { r with members := r.members.filter (fun c => c != x) }) :=
      List.mem_of_mem_filter hr
    obtain ⟨r0, hr0, rfl⟩ := List.mem_map.mp hr2
    obtain ⟨u, c, hname, hmem, hlook⟩ := hrooms r0 hr0
    have hcx : ¬ c = x := by
      intro hcx
      have : r0.members.filter (fun c => c != x) = [] := by
        rw [hmem, hcx]
        simp
      have hne := List.mem_filter.mp hr
      rw [this] at hne
      simp at hne
    refine ⟨u, c, hname, ?_, ?_⟩
    · rw [hmem]
      simp [hcx]
    · show lookupSock (st.socks.filter (fun s => s.1 != x)) c = some u
      rw [lookupSock_filter_ne st.socks c x hcx]
      exact hlook

theorem nodup_names_dropEmpty_map (l : List Room) (f : Room → Room)
    (hf : ∀ r, (f r).name = r.name) (h : (l.map Room.name).Nodup) :
    ((dropEmpty (l.map f)).map Room.name).Nodup := by
  have hsub : List.Sublist (dropEmpty (l.map f)) (l.map f) := List.filter_sublist _
  have hsub2 := hsub.map Room.name
  rw [List.map_map] at hsub2
  have hmn : l.map (Room.name ∘ f) = l.map Room.name :=
    map_eq_map_of _ _ _ (fun a _ => hf a)
  rw [hmn] at hsub2
  exact List.Nodup.sublist hsub2 h

theorem evictOldest_two (st : SrvState) (sid c0 : Nat) (uid : String)
    (hms : membersOf st uid = [c0, sid]) (hne : ¬ c0 = sid) :
    evictOldest st sid uid = disconnectSock st c0 := by
  unfold evictOldest
  simp only [hms]
  rw [if_pos (by norm_num : ([c0, sid] : List Nat).length > 1)]
  have h2 : ([c0, sid] : List Nat).dropLast = [c0] := rfl
  rw [h2]
  have h3 : [c0].filter (fun c => c != sid) = [c0] := by
    simp [hne]
  rw [h3]
  rfl

theorem cleanInv_admitSock (st : SrvState) (sid : Nat) (uid : String)
    (hfresh : st.socks.any (fun s => s.1 == sid) = false) (h : cleanInv st) :
    cleanInv (admitSock st sid uid) := by
  obtain ⟨hnodup, hrooms⟩ := h
  have hfresh' : ∀ s ∈ st.socks, ¬ s.1 = sid := by
    intro s hs
    have := List.any_eq_false.mp hfresh s hs
    simpa using this
  have hl_new : lookupSock (st.socks ++ [(sid, uid)]) sid = some uid :=
    lookupSock_append_fresh st.socks sid uid hfresh'
  have hmem_ne : ∀ r ∈ st.rooms, ∀ c ∈ r.members, ¬ c = sid := by
    intro r hr c hc hcs
    obtain ⟨u, c0, hname, hmem, hlook⟩ := hrooms r hr
    rw [hmem] at hc
    simp at hc
    subst hc
    obtain ⟨s, hs, hs1, _⟩ := lookupSock_mem st.socks c u hlook
    exact hfresh' s hs (hs1.trans hcs)
  by_cases hA : st.rooms.any (fun r => r.name == RoomName.user uid) = true
  · cases hfind : st.rooms.find? (fun r => r.name == RoomName.user uid) with
    | none =>
      exfalso
      rw [List.find?_eq_none] at hfind
      obtain ⟨r0, h1, h2⟩ := List.any_eq_true.mp hA
      exact hfind r0 h1 h2
    | some r0 =>
      have hr0mem : r0 ∈ st.rooms := List.mem_of_find?_eq_some hfind
      have hr0name : r0.name = RoomName.user uid := by
        have h3 := List.find?_some hfind
        simpa using h3
      have hr0p : (r0.name == RoomName.user uid) = true := by simp [hr0name]
      obtain ⟨u0, c0, hname0, hmem0, hlook0⟩ := hrooms r0 hr0mem
      have hu0 : uid = u0 := by
        have h3 := hname0.symm.trans hr0name
        have h4 : u0 = uid := by simpa using h3
        exact h4.symm
      subst hu0
      have hc0sid : ¬ c0 = sid := hmem_ne r0 hr0mem c0 (by rw [hmem0]; simp)
      have hc0look1 : lookupSock (st.socks ++ [(sid, uid)]) c0 = some uid :=
        lookupSock_append_of_found st.socks (sid, uid) c0 uid hlook0
      have hnamepres : ∀ r : Room, ((fun r =>
          if r.name == RoomName.user uid then
            { r with members := r.members ++ [sid] } else r) r).name = r.name := by
        intro r
        dsimp only
        by_cases hn : (r.name == RoomName.user uid) = true
        · rw [if_pos hn]
        · rw [if_neg hn]
      have hjoin : joinRoom { st with socks := st.socks ++ [(sid, uid)] } sid
          (RoomName.user uid) =
          { socks := st.socks ++ [(sid, uid)],
            rooms := st.rooms.map (fun r =>
              if r.name == RoomName.user uid then
                { r with members := r.members ++ [sid] } else r) } := by
        unfold joinRoom
        dsimp only
        simp only [hA, if_true]
        congr 1
        apply map_eq_map_of
        intro r hr
        by_cases hn : (r.name == RoomName.user uid) = true
        · rw [if_pos hn, if_pos hn]
          obtain ⟨u, c, hname, hmem, hlook⟩ := hrooms r hr
          have hcont : r.members.contains sid = false := by
            rw [hmem]
            have := hmem_ne r hr c (by rw [hmem]; simp)
            simp only [List.contains_cons, List.contains_nil, Bool.or_false]
            rw [beq_eq_false_iff_ne]
            omega
          rw [hcont]
          simp
        · rw [if_neg hn, if_neg hn]
      have hnodup2 : ((st.rooms.map (fun r =>
          if r.name == RoomName.user uid then
            { r with members := r.members ++ [sid] } else r)).map Room.name).Nodup := by
        rw [List.map_map]
        have hmn : st.rooms.map (Room.name ∘ (fun r =>
            if r.name == RoomName.user uid then
              { r with members := r.members ++ [sid] } else r)) =
            st.rooms.map Room.name :=
          map_eq_map_of _ _ _ (fun a _ => hnamepres a)
        rw [hmn]
        exact hnodup
      have hclean : cleanupOrphanedSockets
          { socks := st.socks ++ [(sid, uid)],
            rooms := st.rooms.map (fun r =>
              if r.name == RoomName.user uid then
                { r with members := r.members ++ [sid] } else r) } =
          { socks := st.socks ++ [(sid, uid)],
            rooms := st.rooms.map (fun r =>
              if r.name == RoomName.user uid then
                { r with members := r.members ++ [sid] } else r) } := by
        apply cleanupOrphanedSockets_id
        intro r hr
        dsimp only at hr
        obtain ⟨r1, hr1, rfl⟩ := List.mem_map.mp hr
        by_cases hn : (r1.name == RoomName.user uid) = true
        · have hr1eq : r1 = r0 := by
            apply eq_of_nodup_names st.rooms hnodup r1 r0 hr1 hr0mem
            rw [hr0name]
            simpa using hn
          subst hr1eq
          rw [if_pos hn]
          refine ⟨by rw [hmem0]; simp, ?_⟩
          intro u2 hn2 c2 hc2
          have hu2 : u2 = uid := by
            dsimp only at hn2
            rw [hr0name] at hn2
            simpa using hn2.symm
          subst hu2
          dsimp only at hc2
          rw [hmem0] at hc2
          simp at hc2
          rcases hc2 with rfl | rfl
          · exact hc0look1
          · exact hl_new
        · rw [if_neg hn]
          obtain ⟨u, c, hname, hmem, hlook⟩ := hrooms r1 hr1
          refine ⟨by rw [hmem]; simp, ?_⟩
          intro u2 hn2 c2 hc2
          have hu2 : u = u2 := by
            have h3 := hname.symm.trans hn2
            simpa using h3
          subst hu2
          rw [hmem] at hc2
          simp only [List.mem_singleton] at hc2
          subst hc2
          exact lookupSock_append_of_found st.socks (sid, uid) c2 u hlook
      have hms : membersOf
          { socks := st.socks ++ [(sid, uid)],
            rooms := st.rooms.map (fun r =>
              if r.name == RoomName.user uid then
                { r with members := r.members ++ [sid] } else r) } uid = [c0, sid] := by
        unfold membersOf
        dsimp only
        rw [find?_map_name_preserving _ hnamepres st.rooms (RoomName.user uid), hfind]
        show (if (r0.name == RoomName.user uid) = true then
            { r0 with members := r0.members ++ [sid] } else r0).members = [c0, sid]
        rw [if_pos hr0p]
        dsimp only
        rw [hmem0]
        rfl
      have hev := evictOldest_two
        { socks := st.socks ++ [(sid, uid)],
          rooms := st.rooms.map (fun r =>
            if r.name == RoomName.user uid then
              { r with members := r.members ++ [sid] } else r) } sid c0 uid hms hc0sid
      have hstep : admitSock st sid uid = disconnectSock
          { socks := st.socks ++ [(sid, uid)],
            rooms := st.rooms.map (fun r =>
              if r.name == RoomName.user uid then
                { r with members := r.members ++ [sid] } else r) } c0 := by
        show evictOldest (cleanupOrphanedSockets (joinRoom
          { st with socks := st.socks ++ [(sid, uid)] } sid (RoomName.user uid))) sid uid = _
        rw [hjoin, hclean, hev]
      rw [hstep]
      constructor
      · apply nodup_names_dropEmpty_map
        · intro r
          rfl
        · exact hnodup2
      · intro r hr
        have hr2 : r ∈ (st.rooms.map (fun r =>
            if r.name == RoomName.user uid then
              { r with members := r.members ++ [sid] } else r)).map
            (fun r => { r with members := r.members.filter (fun c => c != c0) }) :=
          List.mem_of_mem_filter hr
        obtain ⟨r2, hr2m, rfl⟩ := List.mem_map.mp hr2
        obtain ⟨r1, hr1, rfl⟩ := List.mem_map.mp hr2m
        by_cases hn : (r1.name == RoomName.user uid) = true
        · have hr1eq : r0 = r1 := by
            have h5 : r1 = r0 := by
              apply eq_of_nodup_names st.rooms hnodup r1 r0 hr1 hr0mem
              rw [hr0name]
              simpa using hn
            exact h5.symm
          subst hr1eq
          refine ⟨uid, sid, ?_, ?_, ?_⟩
          · show (if (r0.name == RoomName.user uid) = true then
                { r0 with members := r0.members ++ [sid] } else r0).name = RoomName.user uid
            rw [if_pos hr0p]
            exact hr0name
          · show (if (r0.name == RoomName.user uid) = true then
                { r0 with members := r0.members ++ [sid] } else r0).members.filter
                (fun c => c != c0) = [sid]
            rw [if_pos hr0p]
            dsimp only
            rw [hmem0]
            have hsc0 : ¬ sid = c0 := fun h => hc0sid h.symm
            simp [hsc0]
          · show lookupSock ((st.socks ++ [(sid, uid)]).filter (fun s => s.1 != c0)) sid =
              some uid
            rw [lookupSock_filter_ne _ sid c0 (fun h => hc0sid h.symm)]
            exact hl_new
        · obtain ⟨u, c, hname, hmem, hlook⟩ := hrooms r1 hr1
          have hcc0 : ¬ c = c0 := by
            intro he
            rw [he] at hlook
            have hueq : u = uid := by
              have h3 := hlook.symm.trans hlook0
              simpa using h3
            subst hueq
            rw [hname] at hn
            simp at hn
          refine ⟨u, c, ?_, ?_, ?_⟩
          · show (if (r1.name == RoomName.user uid) = true then
                { r1 with members := r1.members ++ [sid] } else r1).name = RoomName.user u
            rw [if_neg hn]
            exact hname
          · show (if (r1.name == RoomName.user uid) = true then
                { r1 with members := r1.members ++ [sid] } else r1).members.filter
                (fun c => c != c0) = [c]
            rw [if_neg hn]
            rw [hmem]
            simp [hcc0]
          · show lookupSock ((st.socks ++ [(sid, uid)]).filter (fun s => s.1 != c0)) c =
              some u
            rw [lookupSock_filter_ne _ c c0 hcc0]
            exact lookupSock_append_of_found st.socks (sid, uid) c u hlook
  · have hA2 : st.rooms.any (fun r => r.name == RoomName.user uid) = false := by
      revert hA
      cases st.rooms.any (fun r => r.name == RoomName.user uid) <;> simp
    have hAall : ∀ r ∈ st.rooms, (r.name == RoomName.user uid) = false := by
      intro r hr
      have := List.any_eq_false.mp hA2 r hr
      revert this
      cases r.name == RoomName.user uid <;> simp
    have hjoin : joinRoom { st with socks := st.socks ++ [(sid, uid)] } sid
        (RoomName.user uid) =
        { socks := st.socks ++ [(sid, uid)],
          rooms := st.rooms ++ [{ name := RoomName.user uid, members := [sid] }] } := by
      unfold joinRoom
      simp [hA2]
    have hclean : cleanupOrphanedSockets
        { socks := st.socks ++ [(sid, uid)],
          rooms := st.rooms ++ [{ name := RoomName.user uid, members := [sid] }] } =
        { socks := st.socks ++ [(sid, uid)],
          rooms := st.rooms ++ [{ name := RoomName.user uid, members := [sid] }] } := by
      apply cleanupOrphanedSockets_id
      intro r hr
      rcases List.mem_append.mp hr with hro | hrn
      · obtain ⟨u, c, hname, hmem, hlook⟩ := hrooms r hro
        refine ⟨by rw [hmem]; simp, ?_⟩
        intro u2 hn2 c2 hc2
        rw [hmem] at hc2
        simp at hc2
        subst hc2
        have hu : u = u2 := by
          have h3 := hname.symm.trans hn2
          simpa using h3
        subst hu
        exact lookupSock_append_of_found st.socks (sid, uid) c2 u hlook
      · simp only [List.mem_singleton] at hrn
        subst hrn
        refine ⟨by simp, ?_⟩
        intro u2 hn2 c2 hc2
        simp only [List.mem_singleton] at hc2
        subst hc2
        have hu : uid = u2 := by simpa using hn2
        subst hu
        exact hl_new
    have hms : membersOf
        { socks := st.socks ++ [(sid, uid)],
          rooms := st.rooms ++ [{ name := RoomName.user uid, members := [sid] }] } uid =
        [sid] := by
      unfold membersOf
      dsimp only
      rw [find?_append_none st.rooms _ _ hAall]
      simp [List.find?]
    have hev : evictOldest
        { socks := st.socks ++ [(sid, uid)],
          rooms := st.rooms ++ [{ name := RoomName.user uid, members := [sid] }] } sid uid =
        { socks := st.socks ++ [(sid, uid)],
          rooms := st.rooms ++ [{ name := RoomName.user uid, members := [sid] }] } := by
      unfold evictOldest
      rw [hms]
      simp
    have hstep : admitSock st sid uid =
        { socks := st.socks ++ [(sid, uid)],
          rooms := st.rooms ++ [{ name := RoomName.user uid, members := [sid] }] } := by
      show evictOldest (cleanupOrphanedSockets (joinRoom
        { st with socks := st.socks ++ [(sid, uid)] } sid (RoomName.user uid))) sid uid = _
      rw [hjoin, hclean, hev]
    rw [hstep]
    constructor
    · show ((st.rooms ++ [({ name := RoomName.user uid, members := [sid] } : Room)]).map
        Room.name).Nodup
      rw [List.map_append, List.nodup_append]
      refine ⟨hnodup, by simp, ?_⟩
      intro a ha hb
      simp only [List.map_cons, List.map_nil, List.mem_singleton] at hb
      subst hb
      obtain ⟨r, hr, hrname⟩ := List.mem_map.mp ha
      have := hAall r hr
      rw [hrname] at this
      simp at this
    · intro r hr
      rcases List.mem_append.mp hr with hro | hrn
      · obtain ⟨u, c, hname, hmem, hlook⟩ := hrooms r hro
        exact ⟨u, c, hname, hmem,
          lookupSock_append_of_found st.socks (sid, uid) c u hlook⟩
      · simp only [List.mem_singleton] at hrn
        subst hrn
        exact ⟨uid, sid, rfl, rfl, hl_new⟩

theorem cleanInv_connectStep (v : String → Option String) (ue : String → Bool)
    (st : SrvState) (sid : Nat) (tok : Option String) (h : cleanInv st) :
    cleanInv (connectStep v ue st sid tok) := by
  unfold connectStep
  cases authMiddleware v ue tok with
  | error e => exact h
  | ok uid =>
    by_cases hg : st.socks.any (fun s => s.1 == sid) = true
    · simp only [hg, if_true]
      exact h
    · have hg2 : st.socks.any (fun s => s.1 == sid) = false := by
        revert hg
        cases st.socks.any (fun s => s.1 == sid) <;> simp
      simp only [hg2, Bool.false_eq_true, if_false]
      exact cleanInv_admitSock st sid uid hg2 h

theorem cleanInv_initState : cleanInv initState := by
  constructor
  · simp [initState]
  · intro r hr
    simp [initState] at hr

theorem cleanInv_runSock (v : String → Option String) (ue : String → Bool)
    (evs : List SockEv) (st : SrvState) (hc : churnOnly evs = true) (h : cleanInv st) :
    cleanInv (runSock v ue st evs) := by
  induction evs generalizing st with
  | nil => exact h
  | cons ev rest ih =>
    have hc1 : churnOnly rest = true := by
      unfold churnOnly at hc ⊢
      rw [List.all_cons, Bool.and_eq_true] at hc
      exact hc.2
    have hstep : runSock v ue st (ev :: rest) = runSock v ue (sockStep v ue st ev) rest := rfl
    rw [hstep]
    cases ev with
    | connect sid tok => exact ih _ hc1 (cleanInv_connectStep v ue st sid tok h)
    | joinConversation sid rn =>
      exfalso
      unfold churnOnly at hc
      rw [List.all_cons, Bool.and_eq_true] at hc
      have := hc.1
      simp at this
    | disconnect sid => exact ih _ hc1 (cleanInv_disconnectSock st sid h)

theorem membersOf_length_le_one (st : SrvState) (h : cleanInv st) (u : String) :
    (membersOf st u).length ≤ 1 := by
  unfold membersOf
  cases hf : st.rooms.find? (fun r => r.name == RoomName.user u) with
  | none => simp
  | some r =>
    obtain ⟨u1, c1, _, hmem, _⟩ := h.2 r (List.mem_of_find?_eq_some hf)
    simp [hmem]

theorem membersOf_bound_identity (st : SrvState) (h : cleanInv st) (u : String)
    (c : Nat) (hc : c ∈ membersOf st u) : lookupSock st.socks c = some u := by
  unfold membersOf at hc
  cases hf : st.rooms.find? (fun r => r.name == RoomName.user u) with
  | none =>
    rw [hf] at hc
    simp at hc
  | some r =>
    rw [hf] at hc
    change c ∈ r.members at hc
    have hmem := List.mem_of_find?_eq_some hf
    have hname : r.name = RoomName.user u := by
      have h3 := List.find?_some hf
      simpa using h3
    obtain ⟨u1, c1, hname1, hmem1, hlook1⟩ := h.2 r hmem
    have hu1 : u1 = u := by
      have h3 := hname1.symm.trans hname
      simpa using h3
    subst hu1
    rw [hmem1] at hc
    simp at hc
    subst hc
    exact hlook1

theorem sid_target_disconnect (s : SrvState) (c sid : Nat) (uid : String)
    (hcs : ¬ sid = c)
    (h1 : lookupSock s.socks sid = some uid)
    (h2 : ∃ r ∈ s.rooms, r.name = RoomName.user uid ∧ sid ∈ r.members)
    (h3 : ∀ r ∈ s.rooms, sid ∈ r.members → r.name = RoomName.user uid) :
    lookupSock (disconnectSock s c).socks sid = some uid ∧
    (∃ r ∈ (disconnectSock s c).rooms, r.name = RoomName.user uid ∧ sid ∈ r.members) ∧
    (∀ r ∈ (disconnectSock s c).rooms, sid ∈ r.members → r.name = RoomName.user uid) := by
  refine ⟨?_, ?_, ?_⟩
  · show lookupSock (s.socks.filter (fun x => x.1 != c)) sid = some uid
    rw [lookupSock_filter_ne _ sid c hcs]
    exact h1
  · obtain ⟨r, hr, hname, hmem⟩ := h2
    have hmem2 : sid ∈ r.members.filter (fun m => m != c) :=
      List.mem_filter.mpr ⟨hmem, by simp [hcs]⟩
    refine ⟨{ r with members := r.members.filter (fun m => m != c) }, ?_, hname, hmem2⟩
    show _ ∈ dropEmpty (s.rooms.map (fun r =>
      { r with members := r.members.filter (fun m => m != c) }))
    unfold dropEmpty
    apply List.mem_filter.mpr
    refine ⟨List.mem_map_of_mem _ hr, ?_⟩
    cases hq : List.filter (fun m => m != c) r.members with
    | nil =>
      rw [hq] at hmem2
      simp at hmem2
    | cons a l =>
      simp
  · intro r hr hmem
    have hr2 : r ∈ s.rooms.map (fun r =>
        { r with members := r.members.filter (fun m => m != c) }) :=
      List.mem_of_mem_filter hr
    obtain ⟨r1, hr1, rfl⟩ := List.mem_map.mp hr2
    have hs : sid ∈ r1.members := List.mem_of_mem_filter hmem
    exact h3 r1 hr1 hs

theorem sid_target_foldl (E : List Nat) (s : SrvState) (sid : Nat) (uid : String)
    (hE : ∀ c ∈ E, ¬ sid = c)
    (h1 : lookupSock s.socks sid = some uid)
    (h2 : ∃ r ∈ s.rooms, r.name = RoomName.user uid ∧ sid ∈ r.members)
    (h3 : ∀ r ∈ s.rooms, sid ∈ r.members → r.name = RoomName.user uid) :
    lookupSock (E.foldl disconnectSock s).socks sid = some uid ∧
    (∃ r ∈ (E.foldl disconnectSock s).rooms,
      r.name = RoomName.user uid ∧ sid ∈ r.members) ∧
    (∀ r ∈ (E.foldl disconnectSock s).rooms,
      sid ∈ r.members → r.name = RoomName.user uid) := by
  induction E generalizing s with
  | nil => exact ⟨h1, h2, h3⟩
  | cons c rest ih =>
    have h4 := sid_target_disconnect s c sid uid (hE c (by simp)) h1 h2 h3
    exact ih (disconnectSock s c) (fun x hx => hE x (by simp [hx])) h4.1 h4.2.1 h4.2.2

theorem sid_target_cleanup (s : SrvState) (sid : Nat) (uid : String)
    (h1 : lookupSock s.socks sid = some uid)
    (h2 : ∃ r ∈ s.rooms, r.name = RoomName.user uid ∧ sid ∈ r.members)
    (h3 : ∀ r ∈ s.rooms, sid ∈ r.members → r.name = RoomName.user uid) :
    lookupSock (cleanupOrphanedSockets s).socks sid = some uid ∧
    (∃ r ∈ (cleanupOrphanedSockets s).rooms,
      r.name = RoomName.user uid ∧ sid ∈ r.members) ∧
    (∀ r ∈ (cleanupOrphanedSockets s).rooms,
      sid ∈ r.members → r.name = RoomName.user uid) := by
  refine ⟨h1, ?_, ?_⟩
  · obtain ⟨r, hr, hname, hmem⟩ := h2
    obtain ⟨rname, rmem⟩ := r
    dsimp only at hname hmem
    subst hname
    have hmem2 : sid ∈ rmem.filter (fun m =>
        match lookupSock s.socks m with
        | some u2 => u2 == uid
        | none => true) := by
      apply List.mem_filter.mpr
      refine ⟨hmem, ?_⟩
      rw [h1]
      simp
    refine ⟨{ name := RoomName.user uid, members := rmem.filter (fun m =>
        match lookupSock s.socks m with
        | some u2 => u2 == uid
        | none => true) }, ?_, rfl, hmem2⟩
    show _ ∈ dropEmpty _
    unfold dropEmpty
    apply List.mem_filter.mpr
    constructor
    · apply List.mem_map.mpr
      exact ⟨⟨RoomName.user uid, rmem⟩, hr, rfl⟩
    · cases hq : rmem.filter (fun m =>
          match lookupSock s.socks m with
          | some u2 => u2 == uid
          | none => true) with
      | nil =>
        rw [hq] at hmem2
        simp at hmem2
      | cons a l =>
        simp
  · intro r hr hmem
    have hr2 := List.mem_of_mem_filter hr
    obtain ⟨r1, hr1, rfl⟩ := List.mem_map.mp hr2
    obtain ⟨rname, rmem⟩ := r1
    cases rname with
    | user u2 =>
      have hs : sid ∈ rmem := List.mem_of_mem_filter hmem
      exact h3 ⟨RoomName.user u2, rmem⟩ hr1 hs
    | conv s2 =>
      exact h3 ⟨RoomName.conv s2, rmem⟩ hr1 hmem

theorem sid_target_join (s : SrvState) (sid : Nat) (uid : String)
    (hroomfresh : ∀ r ∈ s.rooms, sid ∉ r.members) :
    (joinRoom s sid (RoomName.user uid)).socks = s.socks ∧
    (∃ r ∈ (joinRoom s sid (RoomName.user uid)).rooms,
      r.name = RoomName.user uid ∧ sid ∈ r.members) ∧
    (∀ r ∈ (joinRoom s sid (RoomName.user uid)).rooms,
      sid ∈ r.members → r.name = RoomName.user uid) := by
  unfold joinRoom
  by_cases hA : s.rooms.any (fun r => r.name == RoomName.user uid) = true
  · simp only [hA, if_true]
    have hFG : s.rooms.map (fun r =>
        if r.name == RoomName.user uid then
          if r.members.contains sid then r else { r with members := r.members ++ [sid] }
        else r) =
        s.rooms.map (fun r =>
          if r.name == RoomName.user uid then
            { r with members := r.members ++ [sid] } else r) := by
      apply map_eq_map_of
      intro r hr
      by_cases hn : (r.name == RoomName.user uid) = true
      · rw [if_pos hn, if_pos hn]
        have hcont : r.members.contains sid = false := by
          simp [hroomfresh r hr]
        rw [hcont]
        simp
      · rw [if_neg hn, if_neg hn]
    rw [hFG]
    refine ⟨trivial, ?_, ?_⟩
    · obtain ⟨r0, hr0, hp0⟩ := List.any_eq_true.mp hA
      have hname0 : r0.name = RoomName.user uid := by simpa using hp0
      refine ⟨{ r0 with members := r0.members ++ [sid] }, ?_, hname0, by simp⟩
      apply List.mem_map.mpr
      refine ⟨r0, hr0, ?_⟩
      rw [if_pos hp0]
    · intro r hr hmem
      obtain ⟨r1, hr1, rfl⟩ := List.mem_map.mp hr
      by_cases hn : (r1.name == RoomName.user uid) = true
      · have : (if (r1.name == RoomName.user uid) = true then
            { r1 with members := r1.members ++ [sid] } else r1).name = r1.name := by
          rw [if_pos hn]
        rw [this]
        simpa using hn
      · rw [if_neg hn] at hmem ⊢
        exact absurd hmem (hroomfresh r1 hr1)
  · have hA2 : s.rooms.any (fun r => r.name == RoomName.user uid) = false := by
      revert hA
      cases s.rooms.any (fun r => r.name == RoomName.user uid) <;> simp
    simp only [hA2, Bool.false_eq_true, if_false]
    refine ⟨by trivial, ?_, ?_⟩
    · refine ⟨{ name := RoomName.user uid, members := [sid] }, ?_, rfl, by simp⟩
      simp
    · intro r hr hmem
      rcases List.mem_append.mp hr with hro | hrn
      · exact absurd hmem (hroomfresh r hro)
      · simp only [List.mem_singleton] at hrn
        subst hrn
        rfl

theorem sid_target_evict (s : SrvState) (sid : Nat) (uid : String)
    (h1 : lookupSock s.socks sid = some uid)
    (h2 : ∃ r ∈ s.rooms, r.name = RoomName.user uid ∧ sid ∈ r.members)
    (h3 : ∀ r ∈ s.rooms, sid ∈ r.members → r.name = RoomName.user uid) :
    lookupSock (evictOldest s sid uid).socks sid = some uid ∧
    (∃ r ∈ (evictOldest s sid uid).rooms, r.name = RoomName.user uid ∧ sid ∈ r.members) ∧
    (∀ r ∈ (evictOldest s sid uid).rooms, sid ∈ r.members → r.name = RoomName.user uid) := by
  simp only [evictOldest]
  by_cases hlen : (membersOf s uid).length > 1
  · rw [if_pos hlen]
    apply sid_target_foldl _ _ _ _ ?_ h1 h2 h3
    intro c hc hsc
    have := (List.mem_filter.mp hc).2
    rw [hsc] at this
    simp at this
  · rw [if_neg hlen]
    exact ⟨h1, h2, h3⟩

theorem sid_placed_admitSock (st : SrvState) (sid : Nat) (uid : String)
    (hfresh : st.socks.any (fun s => s.1 == sid) = false)
    (hroomfresh : ∀ r ∈ st.rooms, sid ∉ r.members) :
    lookupSock (admitSock st sid uid).socks sid = some uid ∧
    (∃ r ∈ (admitSock st sid uid).rooms, r.name = RoomName.user uid ∧ sid ∈ r.members) ∧
    (∀ r ∈ (admitSock st sid uid).rooms, sid ∈ r.members → r.name = RoomName.user uid) := by
  have hfresh' : ∀ s ∈ st.socks, ¬ s.1 = sid := by
    intro s hs
    have := List.any_eq_false.mp hfresh s hs
    simpa using this
  have hl_new : lookupSock (st.socks ++ [(sid, uid)]) sid = some uid :=
    lookupSock_append_fresh st.socks sid uid hfresh'
  have hj := sid_target_join { st with socks := st.socks ++ [(sid, uid)] } sid uid
    hroomfresh
  have hj1 : lookupSock (joinRoom { st with socks := st.socks ++ [(sid, uid)] } sid
      (RoomName.user uid)).socks sid = some uid := by
    rw [hj.1]
    exact hl_new
  have hcl := sid_target_cleanup _ sid uid hj1 hj.2.1 hj.2.2
  exact sid_target_evict _ sid uid hcl.1 hcl.2.1 hcl.2.2

/-- C5 counterexample: the `join-conversation` handler joins any
client-supplied room name, so after alice and bob connect, bob can join
the room of user alice by sending `join-conversation` with that room
name; membersOf(alice) then has 2 live connections, exceeding the per-user
cap of 1 that the connection handler enforces. -/
theorem user_room_cap_exceeded_via_join_conversation :
    ¬ ((membersOf (runSock (fun t => some t) (fun _ => true) initState
        [SockEv.connect 1 (some "alice"), SockEv.connect 2 (some "bob"),
         SockEv.joinConversation 2 (RoomName.user "alice")]) "alice").length ≤ 1) := by
  decide

/-- C5 amended: restricted to connection churn (connect/disconnect
events, no `join-conversation`), every user room holds at most one live
connection at every step, the eviction keeping the newest: with the
hardcoded cap of 1, alice opening connection 1 and then connection 2
leaves membersOf(alice) equal to exactly the second connection. -/
theorem churn_user_room_cap :
    (∀ (verify : String → Option String) (userExists : String → Bool)
        (evs : List SockEv) (u : String), churnOnly evs = true →
        (membersOf (runSock verify userExists initState evs) u).length ≤ 1) ∧
    membersOf (runSock (fun t => some t) (fun _ => true) initState
      [SockEv.connect 1 (some "alice"), SockEv.connect 2 (some "alice")]) "alice" =
      [2] := by
  constructor
  · intro v ue evs u hc
    exact membersOf_length_le_one _ (cleanInv_runSock v ue evs initState hc
      cleanInv_initState) u
  · decide

theorem churn_user_room_cap_witness :
    churnOnly [SockEv.connect 7 (some "alice"), SockEv.disconnect 7] = true ∧
    (membersOf (runSock (fun t => some t) (fun _ => true) initState
      [SockEv.connect 7 (some "alice"), SockEv.disconnect 7]) "alice").length ≤ 1 :=
  ⟨by decide, churn_user_room_cap.1 (fun t => some t) (fun _ => true)
    [SockEv.connect 7 (some "alice"), SockEv.disconnect 7] "alice" (by decide)⟩

/-- C6 counterexample: a connection admitted with identity dave appears
in membersOf(carol): the `join-conversation` handler joins the
client-supplied room name `user:carol` without any identity check, and
the orphan cleanup only runs on later connects. -/
theorem foreign_socket_in_user_room :
    6 ∈ membersOf (runSock (fun t => some t) (fun _ => true) initState
      [SockEv.connect 5 (some "carol"), SockEv.connect 6 (some "dave"),
       SockEv.joinConversation 6 (RoomName.user "carol")]) "carol" ∧
    lookupSock (runSock (fun t => some t) (fun _ => true) initState
      [SockEv.connect 5 (some "carol"), SockEv.connect 6 (some "dave"),
       SockEv.joinConversation 6 (RoomName.user "carol")]).socks 6 = some "dave" ∧
    ¬ ("dave" = "carol") := by
  refine ⟨by decide, by decide, by decide⟩

/-- C6 amended: restricted to connection churn (no `join-conversation`
events), every member of membersOf(u) is a connection whose bound
identity is exactly u, at every step. -/
theorem churn_room_identity :
    ∀ (verify : String → Option String) (userExists : String → Bool)
      (evs : List SockEv) (u : String) (c : Nat), churnOnly evs = true →
      c ∈ membersOf (runSock verify userExists initState evs) u →
      lookupSock (runSock verify userExists initState evs).socks c = some u := by
  intro v ue evs u c hc hmem
  exact membersOf_bound_identity _ (cleanInv_runSock v ue evs initState hc
    cleanInv_initState) u c hmem

theorem churn_room_identity_witness :
    churnOnly [SockEv.connect 8 (some "erin")] = true ∧
    8 ∈ membersOf (runSock (fun t => some t) (fun _ => true) initState
      [SockEv.connect 8 (some "erin")]) "erin" ∧
    lookupSock (runSock (fun t => some t) (fun _ => true) initState
      [SockEv.connect 8 (some "erin")]).socks 8 = some "erin" :=
  ⟨by decide, by decide, churn_room_identity (fun t => some t) (fun _ => true)
    [SockEv.connect 8 (some "erin")] "erin" 8 (by decide) (by decide)⟩

/-- C7: a new connection attempt with a fresh transport id either fails
the middleware (no token, invalid token, or unknown user) and is refused
with an authentication error before any state change, or passes and is
admitted with its identity bound and placed into a user room named by its
userId — and into no other room. -/
theorem connection_admission (verify : String → Option String)
    (userExists : String → Bool) (st : SrvState) (sid : Nat) (tok : Option String)
    (hfresh : st.socks.any (fun s => s.1 == sid) = false)
    (hroomfresh : ∀ r ∈ st.rooms, sid ∉ r.members) :
    (∀ e, authMiddleware verify userExists tok = Except.error e →
      connectStep verify userExists st sid tok = st) ∧
    (∀ uid, authMiddleware verify userExists tok = Except.ok uid →
      lookupSock (connectStep verify userExists st sid tok).socks sid = some uid ∧
      (∃ r ∈ (connectStep verify userExists st sid tok).rooms,
        r.name = RoomName.user uid ∧ sid ∈ r.members) ∧
      (∀ r ∈ (connectStep verify userExists st sid tok).rooms,
        sid ∈ r.members → r.name = RoomName.user uid)) := by
  constructor
  · intro e he
    unfold connectStep
    rw [he]
  · intro uid hok
    unfold connectStep
    rw [hok]
    simp only [hfresh, Bool.false_eq_true, if_false]
    exact sid_placed_admitSock st sid uid hfresh hroomfresh

theorem connection_admission_witness :
    (initState.socks.any (fun s => s.1 == 3) = false) ∧
    lookupSock (connectStep (fun t => some t) (fun _ => true) initState 3
      (some "u9")).socks 3 = some "u9" ∧
    (∃ r ∈ (connectStep (fun t => some t) (fun _ => true) initState 3
      (some "u9")).rooms, r.name = RoomName.user "u9" ∧ 3 ∈ r.members) := by
  have h := connection_admission (fun t => some t) (fun _ => true) initState 3
    (some "u9") (by decide) (by decide)
  exact ⟨by decide, (h.2 "u9" rfl).1, (h.2 "u9" rfl).2.1⟩

end ChatBot
